import Mathlib

/-!
Verification of the MRT record parser (mrtparser.c) against its
natural-language specification.  The C source is shallowly embedded:
records are lists of byte values, every memory read is bounds-checked
and an out-of-bounds read is reported as a distinguished outcome, the
fatal process-terminating paths (err/errx) are a distinguished outcome,
and the recoverable failure paths (NULL returns / -1 returns) are a
third outcome.  Machine integers are modelled as Nat/Int with explicit
wrap-around where the C width matters (uint16_t attribute lengths, the
uint16_t inflated-length accumulator, the u_int record length).
-/

set_option linter.unusedVariables false

namespace Mrt

/-- Outcome of running a piece of the translated C code. ok is a normal
return value; err is the recoverable failure path (a NULL return or a -1
return: the current record is discarded); fatal models err(1,...) and
errx(1,...), which terminate the whole process; oob marks a memory read
past the end of the record buffer, which is undefined behaviour in the C
source. -/
inductive PRes (α : Type) where
  | ok (val : α)
  | err
  | fatal
  | oob
deriving DecidableEq, Repr

def PRes.bind {α β : Type} : PRes α → (α → PRes β) → PRes β
  | .ok a, f => f a
  | .err, _ => .err
  | .fatal, _ => .fatal
  | .oob, _ => .oob

instance : Monad PRes where
  pure := PRes.ok
  bind := PRes.bind

@[simp] theorem PRes.bind_ok {α β : Type} (a : α) (f : α → PRes β) :
    PRes.bind (.ok a) f = f a := rfl

@[simp] theorem PRes.bind_err {α β : Type} (f : α → PRes β) :
    PRes.bind .err f = .err := rfl

@[simp] theorem PRes.bind_fatal {α β : Type} (f : α → PRes β) :
    PRes.bind .fatal f = .fatal := rfl

@[simp] theorem PRes.bind_oob {α β : Type} (f : α → PRes β) :
    PRes.bind .oob f = .oob := rfl

@[simp] theorem PRes.bind_eq_bind {α β : Type} (m : PRes α) (f : α → PRes β) :
    m >>= f = PRes.bind m f := rfl

@[simp] theorem PRes.pure_eq_ok {α : Type} (a : α) : (pure a : PRes α) = .ok a := rfl

/-- Read one byte from the remaining buffer (the C code dereferences the
cursor pointer; reading past the buffer is undefined behaviour). -/
def rd8 : List Nat → PRes (Nat × List Nat)
  | [] => .oob
  | a :: r => .ok (a, r)

/-- Read a big-endian 16-bit value (ntohs of a memcpy'd uint16_t). -/
def rd16 : List Nat → PRes (Nat × List Nat)
  | a :: b :: r => .ok (256 * a + b, r)
  | _ => .oob

/-- Read a big-endian 32-bit value (ntohl of a memcpy'd uint32_t). -/
def rd32 : List Nat → PRes (Nat × List Nat)
  | a :: b :: c :: d :: r => .ok (((a * 256 + b) * 256 + c) * 256 + d, r)
  | _ => .oob

/-- Read n raw bytes (memcpy of n bytes). -/
def rdN (n : Nat) (l : List Nat) : PRes (List Nat × List Nat) :=
  if n ≤ l.length then .ok (l.take n, l.drop n) else .oob

@[simp] theorem rd8_cons (a : Nat) (r : List Nat) : rd8 (a :: r) = .ok (a, r) := rfl

@[simp] theorem rd8_nil : rd8 [] = .oob := rfl

@[simp] theorem rd16_cons (a b : Nat) (r : List Nat) :
    rd16 (a :: b :: r) = .ok (256 * a + b, r) := rfl

@[simp] theorem rd32_cons (a b c d : Nat) (r : List Nat) :
    rd32 (a :: b :: c :: d :: r) = .ok (((a * 256 + b) * 256 + c) * 256 + d, r) := rfl

@[simp] theorem rd16_nil : rd16 [] = .oob := rfl

@[simp] theorem rd16_one (a : Nat) : rd16 [a] = .oob := rfl

@[simp] theorem rd32_nil : rd32 [] = .oob := rfl

@[simp] theorem rd32_one (a : Nat) : rd32 [a] = .oob := rfl

@[simp] theorem rd32_two (a b : Nat) : rd32 [a, b] = .oob := rfl

@[simp] theorem rd32_three (a b c : Nat) : rd32 [a, b, c] = .oob := rfl

/-- Address family identifiers (the AID_* constants of bgpd; their
numeric values never matter to the parser, only their identity). -/
inductive Aid where
  | unspec
  | inet
  | inet6
  | vpn4
  | vpn6
deriving DecidableEq, Repr

/-- A decoded address (struct bgpd_addr): the family tag plus the raw
address bytes that the C code memcpy's into the v4/v6 union member. -/
structure BgpdAddr where
  aid : Aid
  bytes : List Nat
deriving DecidableEq, Repr

instance : Inhabited BgpdAddr := ⟨⟨.unspec, []⟩⟩

/-- A peer entry of the TABLE_DUMP_V2 peer index table
(struct mrt_peer_entry). -/
structure MrtPeerEntry where
  bgp_id : Nat
  addr : BgpdAddr
  asnum : Nat
deriving DecidableEq, Repr

instance : Inhabited MrtPeerEntry := ⟨⟨0, default, 0⟩⟩

/-- The peer context (struct mrt_peer): collector bgp id, view name
bytes, and the peer array with its count. -/
structure MrtPeer where
  bgp_id : Nat
  view : List Nat
  peers : List MrtPeerEntry
  npeers : Nat
deriving DecidableEq, Repr

/-- One decoded RIB entry (struct mrt_rib_entry).  aspath is none while
the C pointer is NULL; attrs collects the raw unknown-attribute blobs. -/
structure MrtRibEntry where
  peer_idx : Nat
  originated : Nat
  path_id : Nat
  origin : Nat
  aspath : Option (List Nat)
  aspath_len : Nat
  nexthop : BgpdAddr
  med : Nat
  local_pref : Nat
  nattrs : Nat
  attrs : List (List Nat)
deriving DecidableEq, Repr

/-- The zeroed entry produced by calloc. -/
def emptyRibEntry : MrtRibEntry :=
  ⟨0, 0, 0, 0, none, 0, default, 0, 0, 0, []⟩

/-- A decoded RIB record (struct mrt_rib). -/
structure MrtRib where
  seqnum : Nat
  pfx : BgpdAddr
  prefixlen : Nat
  add_path : Bool
  nentries : Nat
  entries : List MrtRibEntry
deriving DecidableEq, Repr

/-- A decoded BGP state change (struct mrt_bgp_state). -/
structure MrtBgpState where
  sec : Nat
  nsec : Nat
  src_as : Nat
  dst_as : Nat
  src : BgpdAddr
  dst : BgpdAddr
  old_state : Nat
  new_state : Nat
deriving DecidableEq, Repr

/-- A decoded BGP message record (struct mrt_bgp_msg). -/
structure MrtBgpMsg where
  sec : Nat
  nsec : Nat
  src_as : Nat
  dst_as : Nat
  src : BgpdAddr
  dst : BgpdAddr
  add_path : Bool
  msg_len : Nat
  msg : List Nat
deriving DecidableEq, Repr

/-- The MRT common header (struct mrt_hdr) after byte-order conversion. -/
structure MrtHdr where
  timestamp : Nat
  mtype : Nat
  subtype : Nat
  length : Nat
deriving DecidableEq, Repr

/-- mrt_afi2aid: map an MRT AFI/SAFI pair to an address family.  The
callers pass safi = -1 when no SAFI is on the wire, hence the Int. -/
def mrt_afi2aid (afi : Nat) (safi : Int) : Aid :=
  if afi = 1 then
    if safi = -1 ∨ safi = 1 ∨ safi = 2 then .inet
    else if safi = 128 then .vpn4
    else .unspec
  else if afi = 2 then
    if safi = -1 ∨ safi = 1 ∨ safi = 2 then .inet6
    else if safi = 128 then .vpn6
    else .unspec
  else .unspec

/-- mrt_extract_addr: decode one address of the given family from the
buffer.  len is the caller's logical remaining length (checked first, a
short length is the -1 failure path); the memcpy itself is then
bounds-checked against the actual buffer.  Returns the address and the
number of bytes consumed.  The VPN forms skip the 8-byte RD/label part. -/
def mrt_extract_addr (l : List Nat) (len : Nat) (aid : Aid) : PRes (BgpdAddr × Nat) :=
  match aid with
  | .inet =>
    if len < 4 then .err
    else if 4 ≤ l.length then .ok (⟨.inet, l.take 4⟩, 4) else .oob
  | .inet6 =>
    if len < 16 then .err
    else if 16 ≤ l.length then .ok (⟨.inet6, l.take 16⟩, 16) else .oob
  | .vpn4 =>
    if len < 12 then .err
    else if 12 ≤ l.length then .ok (⟨.vpn4, (l.drop 8).take 4⟩, 12) else .oob
  | .vpn6 =>
    if len < 24 then .err
    else if 24 ≤ l.length then .ok (⟨.vpn6, (l.drop 8).take 16⟩, 24) else .oob
  | .unspec => .err

/-- Width in bits of the prefix length accepted for each family by the
NLRI sub-decoder. -/
def aidWidthBits : Aid → Nat
  | .inet => 32
  | .inet6 => 128
  | .vpn4 => 32
  | .vpn6 => 128
  | .unspec => 0

/-- Modelled from the spec: mrt_extract_prefix delegates to the external
NLRI sub-decoders nlri_get_prefix / nlri_get_prefix6 / nlri_get_vpn4 /
nlri_get_vpn6, which are not part of this repository's source.  Per spec
section 4.2 / 6 the sub-decoder reads a 1-byte bit length, fails with
BadPrefixLen when it exceeds the family width, then reads that many bits
rounded up to whole bytes, failing with Truncated on a short buffer.
Returns (prefix address, prefix bit length, bytes consumed). -/
def mrt_extract_pfx (l : List Nat) (len : Nat) (aid : Aid) : PRes (BgpdAddr × Nat × Nat) :=
  if aid = .unspec then .err
  else if len < 1 then .err
  else
    match l with
    | [] => .oob
    | plen :: rest =>
      if aidWidthBits aid < plen then .err
      else
        if len < 1 + (plen + 7) / 8 then .err
        else if (plen + 7) / 8 ≤ rest.length then
          .ok (⟨aid, rest.take ((plen + 7) / 8)⟩, plen, 1 + (plen + 7) / 8)
        else .oob

/-- First pass of mrt_aspath_inflate: walk the 2-byte-ASN segments and
accumulate the inflated output length in the uint16_t nlen accumulator
(hence the mod 65536).  The segment length byte seg[1] is read before
the seg_size > olen overrun check, exactly as in the source. -/
def inflateSize (l : List Nat) (olen : Nat) (nlen : Nat) : PRes Nat :=
  if h : olen = 0 then .ok nlen
  else
    match l with
    | _t :: sl :: _ =>
      if olen < 2 + 2 * sl then .err
      else inflateSize (l.drop (2 + 2 * sl)) (olen - (2 + 2 * sl)) ((nlen + 2 + 4 * sl) % 65536)
    | _ => .oob
termination_by olen
decreasing_by omega

/-- Inner loop of the copy pass: emit one segment's ASNs, zero-extending
each 2-byte ASN to 4 bytes. -/
def emitAsns : Nat → List Nat → PRes (List Nat × List Nat)
  | 0, l => .ok ([], l)
  | n + 1, a :: b :: r =>
    match emitAsns n r with
    | .ok (chunk, rest) => .ok (0 :: 0 :: a :: b :: chunk, rest)
    | e => match e with
      | .err => .err
      | .fatal => .fatal
      | _ => .oob
  | _ + 1, _ => .oob

/-- Second pass of mrt_aspath_inflate: copy segments while fewer than
nlen output bytes have been produced (the C loop checks the output
cursor against ndata + nlen between segments). -/
def inflateCopy (l : List Nat) (remOut : Nat) : PRes (List Nat) :=
  if h : remOut = 0 then .ok []
  else
    match l with
    | t :: sl :: rest =>
      match emitAsns sl rest with
      | .ok (chunk, rest2) =>
        match inflateCopy rest2 (remOut - (2 + 4 * sl)) with
        | .ok out => .ok (t :: sl :: chunk ++ out)
        | e => e
      | .err => .err
      | .fatal => .fatal
      | .oob => .oob
    | _ => .oob
termination_by remOut
decreasing_by omega

/-- mrt_aspath_inflate: two-pass inflation of a 2-byte-ASN AS_PATH into
the 4-byte-ASN form.  A NULL return (segment overruns the declared
length) is the err outcome.  Returns the inflated bytes and the value
stored through the newlen out-parameter. -/
def mrt_aspath_inflate (l : List Nat) (len : Nat) : PRes (List Nat × Nat) :=
  match inflateSize l len 0 with
  | .ok nlen =>
    match inflateCopy l nlen with
    | .ok out => .ok (out, nlen)
    | .err => .err
    | .fatal => .fatal
    | .oob => .oob
  | .err => .err
  | .fatal => .fatal
  | .oob => .oob

/-- Final step of every arm of the attribute switch: advance the cursor
over the declared payload (a += attr_len; alen -= attr_len). -/
def skipAttr (re : MrtRibEntry) (l : List Nat) (alen : Int) (attrLen : Nat) :
    PRes (MrtRibEntry × List Nat × Int) :=
  .ok (re, l.drop attrLen, alen - (attrLen : Int))

/-- Family switch of the MRT_ATTR_MP_REACH_NLRI arm, after the encoding
has been normalized: l1, alen1, aLen1 are the cursor, remaining span
length and attribute length after the optional 3-byte legacy skip. -/
def mpReachBody (aid : Aid) (re : MrtRibEntry) (l1 : List Nat) (alen1 : Int) (aLen1 : Nat) :
    PRes (MrtRibEntry × List Nat × Int) :=
  match aid with
  | .inet6 =>
    if aLen1 < 17 then .err
    else if 17 ≤ l1.length then
      skipAttr { re with nexthop := ⟨.inet6, (l1.drop 1).take 16⟩ } l1 alen1 aLen1
    else .oob
  | .vpn4 =>
    if aLen1 < 12 then .err
    else if 13 ≤ l1.length then
      skipAttr { re with nexthop := ⟨.vpn4, (l1.drop 9).take 4⟩ } l1 alen1 aLen1
    else .oob
  | .vpn6 =>
    if aLen1 < 24 then .err
    else if 25 ≤ l1.length then
      skipAttr { re with nexthop := ⟨.vpn6, (l1.drop 9).take 16⟩ } l1 alen1 aLen1
    else .oob
  | _ => skipAttr re l1 alen1 aLen1

/-- The MRT_ATTR_MP_REACH_NLRI arm of mrt_extract_attr.  The first
payload byte is peeked; when it differs from attr_len - 1 (computed in
int arithmetic) the legacy 3-byte AFI/SAFI/reserved prelude is skipped
and attr_len is decremented by 3 in uint16_t arithmetic (wrapping when
attr_len < 3).  Then the per-family length check and next-hop read. -/
def mpReach (aid : Aid) (re : MrtRibEntry) (l : List Nat) (alen : Int) (attrLen : Nat) :
    PRes (MrtRibEntry × List Nat × Int) :=
  match l with
  | [] => .oob
  | p0 :: _ =>
    if (p0 : Int) = (attrLen : Int) - 1 then mpReachBody aid re l alen attrLen
    else mpReachBody aid re (l.drop 3) (alen - 3) ((attrLen + 65533) % 65536)

/-- The switch body of mrt_extract_attr for one attribute, after the
flags / type / length header has been read.  tlv is the buffer at the
start of the attribute (the attr pointer), hdrSize the header size (3,
or 4 with the extended-length flag), l the buffer after the header. -/
def attrBody (aid : Aid) (as4 : Bool) (re : MrtRibEntry) (tlv : List Nat)
    (hdrSize ty attrLen : Nat) (l : List Nat) (alen : Int) :
    PRes (MrtRibEntry × List Nat × Int) :=
  if ty = 1 then
    if attrLen ≠ 1 then .err
    else
      match l with
      | b :: _ => skipAttr { re with origin := b } l alen attrLen
      | [] => .oob
  else if ty = 2 then
    if as4 then
      if attrLen ≤ l.length then
        skipAttr { re with aspath := some (l.take attrLen), aspath_len := attrLen } l alen attrLen
      else .oob
    else
      match mrt_aspath_inflate l attrLen with
      | .ok (ap, nl) =>
        skipAttr { re with aspath := some ap, aspath_len := nl } l alen attrLen
      | .err => .err
      | .fatal => .fatal
      | .oob => .oob
  else if ty = 3 then
    if attrLen ≠ 4 then .err
    else if aid ≠ .inet then skipAttr re l alen attrLen
    else if 4 ≤ l.length then
      skipAttr { re with nexthop := ⟨.inet, l.take 4⟩ } l alen attrLen
    else .oob
  else if ty = 4 then
    if attrLen ≠ 4 then .err
    else
      match l with
      | a :: b :: c :: d :: _ =>
        skipAttr { re with med := ((a * 256 + b) * 256 + c) * 256 + d } l alen attrLen
      | _ => .oob
  else if ty = 5 then
    if attrLen ≠ 4 then .err
    else
      match l with
      | a :: b :: c :: d :: _ =>
        skipAttr { re with local_pref := ((a * 256 + b) * 256 + c) * 256 + d } l alen attrLen
      | _ => .oob
  else if ty = 14 then mpReach aid re l alen attrLen
  else if ty = 17 ∧ as4 = false then
    if attrLen ≤ l.length then
      skipAttr { re with aspath := some (l.take attrLen), aspath_len := attrLen } l alen attrLen
    else .oob
  else
    if 255 ≤ re.nattrs + 1 then .fatal
    else if hdrSize + attrLen ≤ tlv.length then
      skipAttr { re with nattrs := re.nattrs + 1,
                         attrs := re.attrs ++ [tlv.take (hdrSize + attrLen)] } l alen attrLen
    else .oob

/-- One iteration of the do-while loop of mrt_extract_attr: the
alen < 3 check, the flags/type bytes, the 1- or 2-byte length, then the
switch body.  Returns the updated entry, cursor and remaining alen. -/
def attrStep (aid : Aid) (as4 : Bool) (re : MrtRibEntry) (l : List Nat) (alen : Int) :
    PRes (MrtRibEntry × List Nat × Int) :=
  if alen < 3 then .err
  else
    match l with
    | flags :: ty :: l2 =>
      if flags &&& 16 ≠ 0 then
        if alen - 2 < 2 then .err
        else
          match l2 with
          | hi :: lo :: l3 =>
            attrBody aid as4 re (flags :: ty :: l2) 4 ty (256 * hi + lo) l3 (alen - 4)
          | _ => .oob
      else
        match l2 with
        | b0 :: l3 => attrBody aid as4 re (flags :: ty :: l2) 3 ty b0 l3 (alen - 3)
        | [] => .oob
    | _ => .oob

theorem skipAttr_alen {re : MrtRibEntry} {l : List Nat} {alen : Int} {attrLen : Nat}
    {re2 : MrtRibEntry} {l2 : List Nat} {alen2 : Int}
    (h : skipAttr re l alen attrLen = .ok (re2, l2, alen2)) : alen2 ≤ alen := by
  simp only [skipAttr, PRes.ok.injEq, Prod.mk.injEq] at h
  omega

theorem mpReachBody_alen {aid : Aid} {re : MrtRibEntry} {l1 : List Nat} {alen1 : Int}
    {aLen1 : Nat} {re2 : MrtRibEntry} {l2 : List Nat} {alen2 : Int}
    (h : mpReachBody aid re l1 alen1 aLen1 = .ok (re2, l2, alen2)) : alen2 ≤ alen1 := by
  unfold mpReachBody at h
  split at h <;>
    first
    | exact skipAttr_alen h
    | (split at h
       · exact absurd h (by simp)
       · split at h
         · exact skipAttr_alen h
         · exact absurd h (by simp))

theorem mpReach_alen {aid : Aid} {re : MrtRibEntry} {l : List Nat} {alen : Int} {attrLen : Nat}
    {re2 : MrtRibEntry} {l2 : List Nat} {alen2 : Int}
    (h : mpReach aid re l alen attrLen = .ok (re2, l2, alen2)) : alen2 ≤ alen := by
  unfold mpReach at h
  split at h
  · exact absurd h (by simp)
  · split at h
    · exact mpReachBody_alen h
    · exact le_trans (mpReachBody_alen h) (by omega)

theorem attrBody_alen {aid : Aid} {as4 : Bool} {re : MrtRibEntry} {tlv : List Nat}
    {hdrSize ty attrLen : Nat} {l : List Nat} {alen : Int}
    {re2 : MrtRibEntry} {l2 : List Nat} {alen2 : Int}
    (h : attrBody aid as4 re tlv hdrSize ty attrLen l alen = .ok (re2, l2, alen2)) :
    alen2 ≤ alen := by
  unfold attrBody at h
  split at h
  · split at h
    · exact absurd h (by simp)
    · split at h
      · exact skipAttr_alen h
      · exact absurd h (by simp)
  · split at h
    · split at h
      · split at h
        · exact skipAttr_alen h
        · exact absurd h (by simp)
      · split at h <;> first | exact skipAttr_alen h | exact absurd h (by simp)
    · split at h
      · split at h
        · exact absurd h (by simp)
        · split at h
          · exact skipAttr_alen h
          · split at h
            · exact skipAttr_alen h
            · exact absurd h (by simp)
      · split at h
        · split at h
          · exact absurd h (by simp)
          · split at h
            · exact skipAttr_alen h
            · exact absurd h (by simp)
        · split at h
          · split at h
            · exact absurd h (by simp)
            · split at h
              · exact skipAttr_alen h
              · exact absurd h (by simp)
          · split at h
            · exact mpReach_alen h
            · split at h
              · split at h
                · exact skipAttr_alen h
                · exact absurd h (by simp)
              · split at h
                · exact absurd h (by simp)
                · split at h
                  · exact skipAttr_alen h
                  · exact absurd h (by simp)

theorem attrStep_alen {aid : Aid} {as4 : Bool} {re : MrtRibEntry} {l : List Nat} {alen : Int}
    {re2 : MrtRibEntry} {l2 : List Nat} {alen2 : Int}
    (h : attrStep aid as4 re l alen = .ok (re2, l2, alen2)) : alen2 ≤ alen - 3 := by
  unfold attrStep at h
  split at h
  · exact absurd h (by simp)
  · split at h
    · split at h
      · split at h
        · exact absurd h (by simp)
        · split at h
          · exact le_trans (attrBody_alen h) (by omega)
          · exact absurd h (by simp)
      · split at h
        · exact le_trans (attrBody_alen h) (by omega)
        · exact absurd h (by simp)
    · exact absurd h (by simp)

/-- The do-while loop of mrt_extract_attr: run the body once, then
continue while alen > 0. -/
def attrLoop (aid : Aid) (as4 : Bool) (re : MrtRibEntry) (l : List Nat) (alen : Int) :
    PRes MrtRibEntry :=
  match h : attrStep aid as4 re l alen with
  | .ok (re2, l2, alen2) =>
    if h2 : 0 < alen2 then attrLoop aid as4 re2 l2 alen2 else .ok re2
  | .err => .err
  | .fatal => .fatal
  | .oob => .oob
termination_by alen.toNat
decreasing_by
  have := attrStep_alen h
  omega

/-- mrt_extract_attr: iterate the BGP path attribute TLVs of an
attribute span of declared length alen (a C int), updating the RIB
entry. -/
def mrt_extract_attr (re : MrtRibEntry) (l : List Nat) (alen : Int) (aid : Aid)
    (as4 : Bool) : PRes MrtRibEntry :=
  attrLoop aid as4 re l alen

theorem attrLoop_eq (aid : Aid) (as4 : Bool) (re : MrtRibEntry) (l : List Nat) (alen : Int) :
    attrLoop aid as4 re l alen =
      match attrStep aid as4 re l alen with
      | .ok (re2, l2, alen2) =>
        if 0 < alen2 then attrLoop aid as4 re2 l2 alen2 else .ok re2
      | .err => .err
      | .fatal => .fatal
      | .oob => .oob := by
  rw [attrLoop]
  split <;> rename_i heq <;> simp [heq]

/-- Wrapping subtraction on the u_int (32-bit) len counter.  Everywhere
the source subtracts under a guard this equals plain subtraction; in
mrt_parse_dump_mp the subtraction for the BGP4MP_ET microsecond field is
unguarded and can wrap. -/
def wsub (a b : Nat) : Nat := (a + 4294967296 - b % 4294967296) % 4294967296

theorem wsub_of_le {a b : Nat} (hb : b ≤ a) (ha : a < 4294967296) : wsub a b = a - b := by
  unfold wsub
  rw [Nat.mod_eq_of_lt (lt_of_le_of_lt hb ha)]
  omega

/-- Loop of mrt_parse_v2_peer over the peer entries.  The len counter of
the source stays in lock-step with the remaining buffer here (every
subtraction is guarded by a check or preceded by a read of the same
bytes), so the remaining list stands for both. -/
def v2peerEntries : Nat → List Nat → List MrtPeerEntry → PRes (List MrtPeerEntry)
  | 0, _, acc => .ok acc
  | cnt + 1, l, acc =>
    if l.length < 5 then .err
    else
      match rd8 l with
      | .ok (ty, l) =>
        match rd32 l with
        | .ok (bid, l) =>
          match (if ty &&& 1 ≠ 0 then mrt_extract_addr l l.length .inet6
                 else mrt_extract_addr l l.length .inet) with
          | .ok (addr, n) =>
            match (if ty &&& 2 ≠ 0 then rd32 (l.drop n) else rd16 (l.drop n)) with
            | .ok (asn, l2) => v2peerEntries cnt l2 (acc ++ [⟨bid, addr, asn⟩])
            | .err => .err
            | .fatal => .fatal
            | .oob => .oob
          | .err => .err
          | .fatal => .fatal
          | .oob => .oob
        | e => match e with | .err => .err | .fatal => .fatal | _ => .oob
      | e => match e with | .err => .err | .fatal => .fatal | _ => .oob

/-- mrt_parse_v2_peer: decode a TABLE_DUMP_V2 PEER_INDEX_TABLE payload.
The payload buffer has exactly the header length ntohl(hdr->length)
bytes, so the list length is the initial len of the source. -/
def mrt_parse_v2_peer (l : List Nat) : PRes MrtPeer :=
  if l.length < 8 then .err
  else
    match rd32 l with
    | .ok (bid, l) =>
      match rd16 l with
      | .ok (vlen, l) =>
        if l.length < vlen then .err
        else
          match rd16 (l.drop vlen) with
          | .ok (cnt, l2) =>
            match v2peerEntries cnt l2 [] with
            | .ok peers => .ok ⟨bid, l.take vlen, peers, cnt⟩
            | .err => .err
            | .fatal => .fatal
            | .oob => .oob
          | e => match e with | .err => .err | .fatal => .fatal | _ => .oob
      | e => match e with | .err => .err | .fatal => .fatal | _ => .oob
    | e => match e with | .err => .err | .fatal => .fatal | _ => .oob

/-- Loop of mrt_parse_v2_rib over the per-peer entries; addPath selects
the RFC 8050 layout with the extra path_id field, and the attribute
block is always parsed with as4 = true.  path0 is the current value of
the path_id local, which the source only overwrites in add-path mode. -/
def v2ribEntries (addPath : Bool) (aid : Aid) (path0 : Nat) :
    Nat → List Nat → List MrtRibEntry → PRes (List MrtRibEntry)
  | 0, _, acc => .ok acc
  | cnt + 1, l, acc =>
    if l.length < 8 then .err
    else
      match rd16 l with
      | .ok (pix, l) =>
        match rd32 l with
        | .ok (otm, l) =>
          match (if addPath then
                   if l.length < 6 then (.err : PRes (Nat × List Nat)) else rd32 l
                 else .ok (path0, l)) with
          | .ok (pid, l) =>
            match rd16 l with
            | .ok (alen, l) =>
              if l.length < alen then .err
              else
                match mrt_extract_attr
                    { emptyRibEntry with peer_idx := pix, originated := otm, path_id := pid }
                    l (alen : Int) aid true with
                | .ok re => v2ribEntries addPath aid pid cnt (l.drop alen) (acc ++ [re])
                | .err => .err
                | .fatal => .fatal
                | .oob => .oob
            | e => match e with | .err => .err | .fatal => .fatal | _ => .oob
          | e => match e with | .err => .err | .fatal => .fatal | _ => .oob
        | e => match e with | .err => .err | .fatal => .fatal | _ => .oob
      | e => match e with | .err => .err | .fatal => .fatal | _ => .oob

/-- mrt_parse_v2_rib: decode a TABLE_DUMP_V2 RIB payload.  The subtype
constants (from mrt.h, which is outside src/) follow RFC 6396/8050 as
named in the spec: 2..5 per-AFI unicast/multicast, 6 generic, 8..12 the
corresponding ADDPATH forms. -/
def mrt_parse_v2_rib (hdr : MrtHdr) (l : List Nat) : PRes MrtRib :=
  if l.length < 5 then .err
  else
    match rd32 l with
    | .ok (snum, l) =>
      let st := hdr.subtype
      let addPath := st = 8 ∨ st = 9 ∨ st = 10 ∨ st = 11 ∨ st = 12
      match (if st = 2 ∨ st = 3 ∨ st = 8 ∨ st = 9 then
               match mrt_extract_pfx l l.length .inet with
               | .ok (p, plen, n) => .ok (p, plen, l.drop n)
               | .err => .err
               | .fatal => .fatal
               | .oob => .oob
             else if st = 4 ∨ st = 5 ∨ st = 10 ∨ st = 11 then
               match mrt_extract_pfx l l.length .inet6 with
               | .ok (p, plen, n) => .ok (p, plen, l.drop n)
               | .err => .err
               | .fatal => .fatal
               | .oob => .oob
             else if st = 6 ∨ st = 12 then
               if l.length < 3 then .err
               else
                 match rd16 l with
                 | .ok (afi, l) =>
                   match rd8 l with
                   | .ok (safi, l) =>
                     if mrt_afi2aid afi (safi : Int) = .unspec then .err
                     else
                       match mrt_extract_pfx l l.length (mrt_afi2aid afi (safi : Int)) with
                       | .ok (p, plen, n) => .ok (p, plen, l.drop n)
                       | .err => .err
                       | .fatal => .fatal
                       | .oob => .oob
                   | e => match e with | .err => .err | .fatal => .fatal | _ => .oob
                 | e => match e with | .err => .err | .fatal => .fatal | _ => .oob
             else (.fatal : PRes (BgpdAddr × Nat × List Nat))) with
      | .ok (pfx, plen, l) =>
        if l.length < 2 then .err
        else
          match rd16 l with
          | .ok (cnt, l) =>
            match v2ribEntries addPath pfx.aid 0 cnt l [] with
            | .ok entries => .ok ⟨snum, pfx, plen, addPath, cnt, entries⟩
            | .err => .err
            | .fatal => .fatal
            | .oob => .oob
          | e => match e with | .err => .err | .fatal => .fatal | _ => .oob
      | .err => .err
      | .fatal => .fatal
      | .oob => .oob
    | e => match e with | .err => .err | .fatal => .fatal | _ => .oob

/-- The synthetic singleton peer context that mrt_parse_dump and
mrt_parse_dump_mp allocate on first use (calloc: all fields zero, one
zeroed peer entry). -/
def singletonPeer : Option MrtPeer → MrtPeer
  | some p => p
  | none => ⟨0, [], [default], 1⟩

/-- Overwrite the address of the first peer slot (p->peers->addr).  The
source performs this write even when the peer array came from a peer
index table; on an empty array the C write is out of bounds of the
zero-byte allocation, modelled as a no-op here (no claim depends on it). -/
def setPeer0Addr (p : MrtPeer) (a : BgpdAddr) : MrtPeer :=
  { p with peers := match p.peers with | [] => [] | e :: r => { e with addr := a } :: r }

/-- Overwrite the AS number of the first peer slot (p->peers->asnum). -/
def setPeer0Asn (p : MrtPeer) (n : Nat) : MrtPeer :=
  { p with peers := match p.peers with | [] => [] | e :: r => { e with asnum := n } :: r }

/-- mrt_parse_dump: decode a legacy TABLE_DUMP record (subtype 1 = IPv4,
2 = IPv6).  Returns the decoded RIB (none on the -1 failure path, which
discards the record but keeps any mutation already made to the
singleton peer context) together with the peer context.  A failing
mrt_extract_addr has already zeroed its destination, hence the explicit
setPeer0Addr p default on the peer-address failure path.  The len
counter of the source stays in lock-step with the remaining buffer
here, so the remaining list stands for both. -/
def mrt_parse_dump (hdr : MrtHdr) (l : List Nat) (pp : Option MrtPeer) :
    PRes (Option MrtRib × MrtPeer) :=
  let p := singletonPeer pp
  if l.length < 4 then .ok (none, p)
  else
    match rd16 (l.drop 2) with
    | .ok (seq, l) =>
      match (if hdr.subtype = 1 then
               match mrt_extract_addr l l.length .inet with
               | .ok (a, n) => .ok (a, l.drop n)
               | .err => .err
               | .fatal => .fatal
               | .oob => .oob
             else if hdr.subtype = 2 then
               match mrt_extract_addr l l.length .inet6 with
               | .ok (a, n) => .ok (a, l.drop n)
               | .err => .err
               | .fatal => .fatal
               | .oob => .oob
             else (.ok (default, l) : PRes (BgpdAddr × List Nat))) with
      | .ok (pfxa, l) =>
        if l.length < 14 then .ok (none, p)
        else
          match rd8 l with
          | .ok (plen, l) =>
            match rd32 (l.drop 1) with
            | .ok (otm, l) =>
              match (if hdr.subtype = 1 then
                       match mrt_extract_addr l l.length .inet with
                       | .ok (a, n) => .ok (setPeer0Addr p a, l.drop n)
                       | .err => .err
                       | .fatal => .fatal
                       | .oob => .oob
                     else if hdr.subtype = 2 then
                       match mrt_extract_addr l l.length .inet6 with
                       | .ok (a, n) => .ok (setPeer0Addr p a, l.drop n)
                       | .err => .err
                       | .fatal => .fatal
                       | .oob => .oob
                     else (.ok (p, l) : PRes (MrtPeer × List Nat))) with
              | .ok (p2, l) =>
                match rd16 l with
                | .ok (asn, l) =>
                  match rd16 l with
                  | .ok (alen, l) =>
                    if l.length < alen then .ok (none, setPeer0Asn p2 asn)
                    else
                      match mrt_extract_attr { emptyRibEntry with originated := otm } l
                          (alen : Int) pfxa.aid false with
                      | .ok re => .ok (some ⟨seq, pfxa, plen, false, 1, [re]⟩, setPeer0Asn p2 asn)
                      | .err => .ok (none, setPeer0Asn p2 asn)
                      | .fatal => .fatal
                      | .oob => .oob
                  | .err => .err
                  | .fatal => .fatal
                  | .oob => .oob
                | .err => .err
                | .fatal => .fatal
                | .oob => .oob
              | .err => .ok (none, setPeer0Addr p default)
              | .fatal => .fatal
              | .oob => .oob
            | .err => .err
            | .fatal => .fatal
            | .oob => .oob
          | .err => .err
          | .fatal => .fatal
          | .oob => .oob
      | .err => .ok (none, p)
      | .fatal => .fatal
      | .oob => .oob
    | .err => .err
    | .fatal => .fatal
    | .oob => .oob

/-- Source and destination address step of mrt_parse_dump_mp: skip the
source address, decode the destination into the singleton peer slot.
Returns none in place of the cursor on the goto-fail paths (carrying
the possibly mutated peer context), some (cursor, len) to continue. -/
def dumpMpAddrStep (afi : Nat) (p : MrtPeer) (l : List Nat) (len : Nat) :
    PRes (Option (List Nat × Nat) × MrtPeer) :=
  if afi = 1 then
    if len < 8 then .ok (none, p)
    else
      match mrt_extract_addr (l.drop 4) (wsub len 4) .inet with
      | .ok (a, n) => .ok (some ((l.drop 4).drop n, wsub (wsub len 4) n), setPeer0Addr p a)
      | .err => .ok (none, setPeer0Addr p default)
      | .fatal => .fatal
      | .oob => .oob
  else if afi = 2 then
    if len < 32 then .ok (none, p)
    else
      match mrt_extract_addr (l.drop 16) (wsub len 16) .inet6 with
      | .ok (a, n) => .ok (some ((l.drop 16).drop n, wsub (wsub len 16) n), setPeer0Addr p a)
      | .err => .ok (none, setPeer0Addr p default)
      | .fatal => .fatal
      | .oob => .oob
  else .ok (some (l, len), p)

/-- mrt_parse_dump_mp: decode a BGP4MP_ENTRY record.  The len counter is
a u_int in the source and its subtraction for the BGP4MP_ET microsecond
prelude is unguarded (it can wrap on a short payload), so len is
threaded explicitly with wrapping subtraction; every read is still
bounds-checked against the actual buffer. -/
def mrt_parse_dump_mp (hdr : MrtHdr) (l0 : List Nat) (pp : Option MrtPeer) :
    PRes (Option MrtRib × MrtPeer) :=
  let l := if hdr.mtype = 17 then l0.drop 4 else l0
  let len := if hdr.mtype = 17 then wsub l0.length 4 else l0.length
  let p := singletonPeer pp
  if len < 8 then .ok (none, p)
  else
    match rd16 (l.drop 2) with
    | .ok (asn, l) =>
      match rd16 (l.drop 2) with
      | .ok (afi, l) =>
        match dumpMpAddrStep afi (setPeer0Asn p asn) l (wsub (wsub len 4) 4) with
        | .ok (some (l, len), p) =>
          if len < 12 then .ok (none, p)
          else
            match rd32 (l.drop 4) with
            | .ok (otm, l) =>
              match rd16 l with
              | .ok (afi, l) =>
                match rd8 l with
                | .ok (safi, l) =>
                  if mrt_afi2aid afi (safi : Int) = .unspec then .ok (none, p)
                  else
                    match rd8 l with
                    | .ok (nhlen, l) =>
                      match mrt_extract_addr l (wsub (wsub (wsub len 8) 3) 1)
                          (mrt_afi2aid afi (safi : Int)) with
                      | .ok (nh, _) =>
                        if wsub (wsub (wsub len 8) 3) 1 < nhlen then .ok (none, p)
                        else
                          match mrt_extract_pfx (l.drop nhlen)
                              (wsub (wsub (wsub (wsub len 8) 3) 1) nhlen)
                              (mrt_afi2aid afi (safi : Int)) with
                          | .ok (pfxa, plen, ret) =>
                            match rd16 ((l.drop nhlen).drop ret) with
                            | .ok (alen, l) =>
                              if wsub (wsub (wsub (wsub (wsub (wsub len 8) 3) 1) nhlen) ret) 2
                                  < alen then .ok (none, p)
                              else
                                match mrt_extract_attr
                                    { emptyRibEntry with originated := otm, nexthop := nh } l
                                    (alen : Int) pfxa.aid false with
                                | .ok re => .ok (some ⟨0, pfxa, plen, false, 1, [re]⟩, p)
                                | .err => .ok (none, p)
                                | .fatal => .fatal
                                | .oob => .oob
                            | .err => .err
                            | .fatal => .fatal
                            | .oob => .oob
                          | .err => .ok (none, p)
                          | .fatal => .fatal
                          | .oob => .oob
                      | .err => .ok (none, p)
                      | .fatal => .fatal
                      | .oob => .oob
                    | .err => .err
                    | .fatal => .fatal
                    | .oob => .oob
                | .err => .err
                | .fatal => .fatal
                | .oob => .oob
              | .err => .err
              | .fatal => .fatal
              | .oob => .oob
            | .err => .err
            | .fatal => .fatal
            | .oob => .oob
        | .ok (none, p) => .ok (none, p)
        | .err => .err
        | .fatal => .fatal
        | .oob => .oob
      | .err => .err
      | .fatal => .fatal
      | .oob => .oob
    | .err => .err
    | .fatal => .fatal
    | .oob => .oob

/-- Common AS/interface/AFI preamble of the BGP4MP state and message
parsers: 2-byte AS numbers for the AS2 subtypes, 4-byte for the AS4
subtypes; the interface index is skipped without a read.  The len < 8
(respectively len < 12) underrun check is the NULL failure path. -/
def stateMsgPreamble (wide : Bool) (l : List Nat) : PRes (Nat × Nat × Nat × List Nat) :=
  if wide then
    if l.length < 12 then .err
    else
      match rd32 l with
      | .ok (sas, l) =>
        match rd32 l with
        | .ok (das, l) =>
          match rd16 (l.drop 2) with
          | .ok (afi, l) => .ok (sas, das, afi, l)
          | .err => .err
          | .fatal => .fatal
          | .oob => .oob
        | .err => .err
        | .fatal => .fatal
        | .oob => .oob
      | .err => .err
      | .fatal => .fatal
      | .oob => .oob
  else
    if l.length < 8 then .err
    else
      match rd16 l with
      | .ok (sas, l) =>
        match rd16 l with
        | .ok (das, l) =>
          match rd16 (l.drop 2) with
          | .ok (afi, l) => .ok (sas, das, afi, l)
          | .err => .err
          | .fatal => .fatal
          | .oob => .oob
        | .err => .err
        | .fatal => .fatal
        | .oob => .oob
      | .err => .err
      | .fatal => .fatal
      | .oob => .oob

/-- mrt_parse_state: decode a BGP4MP STATE_CHANGE (subtype 0) or
STATE_CHANGE_AS4 (subtype 5) record.  For the BGP4MP_ET header type 17
the leading microsecond field contributes usec * 1000 nanoseconds.  The
old_state / new_state reads at the end have no length check in the
source; here they are bounds-checked against the buffer and report oob
when the payload ends early. -/
def mrt_parse_state (hdr : MrtHdr) (l0 : List Nat) : PRes MrtBgpState :=
  match (if hdr.mtype = 17 then
           match rd32 l0 with
           | .ok (usec, l) => .ok (usec * 1000, l)
           | .err => .err
           | .fatal => .fatal
           | .oob => .oob
         else (.ok (0, l0) : PRes (Nat × List Nat))) with
  | .ok (nsec, l) =>
    match (if hdr.subtype = 0 then stateMsgPreamble false l
           else if hdr.subtype = 5 then stateMsgPreamble true l
           else .fatal) with
    | .ok (sas, das, afi, l) =>
      if mrt_afi2aid afi (-1) = .unspec then .err
      else
        match mrt_extract_addr l l.length (mrt_afi2aid afi (-1)) with
        | .ok (src, n) =>
          match mrt_extract_addr (l.drop n) (l.drop n).length (mrt_afi2aid afi (-1)) with
          | .ok (dst, n2) =>
            match rd16 ((l.drop n).drop n2) with
            | .ok (os, l) =>
              match rd16 l with
              | .ok (ns, _) =>
                .ok ⟨hdr.timestamp, nsec, sas, das, src, dst, os, ns⟩
              | .err => .err
              | .fatal => .fatal
              | .oob => .oob
            | .err => .err
            | .fatal => .fatal
            | .oob => .oob
          | .err => .err
          | .fatal => .fatal
          | .oob => .oob
        | .err => .err
        | .fatal => .fatal
        | .oob => .oob
    | .err => .err
    | .fatal => .fatal
    | .oob => .oob
  | .err => .err
  | .fatal => .fatal
  | .oob => .oob

/-- mrt_parse_msg: decode one of the eight BGP4MP MESSAGE subtypes.
Subtypes 1/6/8/10 carry 2-byte AS numbers, 4/7/9/11 4-byte ones;
subtypes 8..11 set the add-path flag.  The remaining bytes after the
addresses are the raw BGP message (the source leaves the msg pointer
NULL when no bytes remain; both cases are the empty list here). -/
def mrt_parse_msg (hdr : MrtHdr) (l0 : List Nat) : PRes MrtBgpMsg :=
  match (if hdr.mtype = 17 then
           match rd32 l0 with
           | .ok (usec, l) => .ok (usec * 1000, l)
           | .err => .err
           | .fatal => .fatal
           | .oob => .oob
         else (.ok (0, l0) : PRes (Nat × List Nat))) with
  | .ok (nsec, l) =>
    match (if hdr.subtype = 1 ∨ hdr.subtype = 6 ∨ hdr.subtype = 8 ∨ hdr.subtype = 10 then
             stateMsgPreamble false l
           else if hdr.subtype = 4 ∨ hdr.subtype = 7 ∨ hdr.subtype = 9 ∨ hdr.subtype = 11 then
             stateMsgPreamble true l
           else .fatal) with
    | .ok (sas, das, afi, l) =>
      if mrt_afi2aid afi (-1) = .unspec then .err
      else
        match mrt_extract_addr l l.length (mrt_afi2aid afi (-1)) with
        | .ok (src, n) =>
          match mrt_extract_addr (l.drop n) (l.drop n).length (mrt_afi2aid afi (-1)) with
          | .ok (dst, n2) =>
            .ok ⟨hdr.timestamp, nsec, sas, das, src, dst,
                 hdr.subtype = 8 ∨ hdr.subtype = 9 ∨ hdr.subtype = 10 ∨ hdr.subtype = 11,
                 ((l.drop n).drop n2).length, (l.drop n).drop n2⟩
          | .err => .err
          | .fatal => .fatal
          | .oob => .oob
        | .err => .err
        | .fatal => .fatal
        | .oob => .oob
    | .err => .err
    | .fatal => .fatal
    | .oob => .oob
  | .err => .err
  | .fatal => .fatal
  | .oob => .oob

/-- A sink invocation made by mrt_parse: the dump callback receives the
decoded RIB together with the current peer context (possibly NULL), the
state and message callbacks their decoded records.  All three sinks are
taken to be set. -/
inductive Event where
  | dump (r : MrtRib) (p : Option MrtPeer)
  | state (s : MrtBgpState)
  | message (m : MrtBgpMsg)
deriving DecidableEq, Repr

/-- mrt_read_msg: read the 12-byte common header, then exactly length
payload bytes.  A short read on either (mrt_read_buf returning less
than requested at end of stream) yields NULL, ending the stream. -/
def mrt_read_msg (s : List Nat) : Option (MrtHdr × List Nat × List Nat) :=
  match rd32 s with
  | .ok (ts, s1) =>
    match rd16 s1 with
    | .ok (ty, s2) =>
      match rd16 s2 with
      | .ok (st, s3) =>
        match rd32 s3 with
        | .ok (len, rest) =>
          if rest.length < len then none
          else some (⟨ts, ty, st, len⟩, rest.take len, rest.drop len)
        | _ => none
      | _ => none
    | _ => none
  | _ => none

theorem rd8_len {l : List Nat} {v : Nat} {r : List Nat} (h : rd8 l = .ok (v, r)) :
    l.length = r.length + 1 := by
  cases l with
  | nil => exact absurd h (by simp [rd8])
  | cons a t => simp only [rd8, PRes.ok.injEq, Prod.mk.injEq] at h; simp [← h.2]

theorem rd16_len {l : List Nat} {v : Nat} {r : List Nat} (h : rd16 l = .ok (v, r)) :
    l.length = r.length + 2 := by
  match l with
  | [] => exact absurd h (by simp [rd16])
  | [a] => exact absurd h (by simp [rd16])
  | a :: b :: t => simp only [rd16, PRes.ok.injEq, Prod.mk.injEq] at h; simp [← h.2]

theorem rd32_len {l : List Nat} {v : Nat} {r : List Nat} (h : rd32 l = .ok (v, r)) :
    l.length = r.length + 4 := by
  match l with
  | [] => exact absurd h (by simp [rd32])
  | [a] => exact absurd h (by simp [rd32])
  | [a, b] => exact absurd h (by simp [rd32])
  | [a, b, c] => exact absurd h (by simp [rd32])
  | a :: b :: c :: d :: t => simp only [rd32, PRes.ok.injEq, Prod.mk.injEq] at h; simp [← h.2]

theorem mrt_read_msg_length {s : List Nat} {h : MrtHdr} {pl rest : List Nat}
    (hm : mrt_read_msg s = some (h, pl, rest)) : rest.length + 12 ≤ s.length := by
  rcases s with _ | ⟨b0, s⟩
  · simp [mrt_read_msg, rd32] at hm
  rcases s with _ | ⟨b1, s⟩
  · simp [mrt_read_msg, rd32] at hm
  rcases s with _ | ⟨b2, s⟩
  · simp [mrt_read_msg, rd32] at hm
  rcases s with _ | ⟨b3, s⟩
  · simp [mrt_read_msg, rd32] at hm
  rcases s with _ | ⟨b4, s⟩
  · simp [mrt_read_msg, rd16] at hm
  rcases s with _ | ⟨b5, s⟩
  · simp [mrt_read_msg, rd16] at hm
  rcases s with _ | ⟨b6, s⟩
  · simp [mrt_read_msg, rd16] at hm
  rcases s with _ | ⟨b7, s⟩
  · simp [mrt_read_msg, rd16] at hm
  rcases s with _ | ⟨b8, s⟩
  · simp [mrt_read_msg, rd32] at hm
  rcases s with _ | ⟨b9, s⟩
  · simp [mrt_read_msg, rd32] at hm
  rcases s with _ | ⟨b10, s⟩
  · simp [mrt_read_msg, rd32] at hm
  rcases s with _ | ⟨b11, s⟩
  · simp [mrt_read_msg, rd32] at hm
  simp only [mrt_read_msg, rd32_cons, rd16_cons] at hm
  split at hm
  · simp at hm
  · simp only [Option.some.injEq, Prod.mk.injEq] at hm
    have hr : rest = s.drop (((b8 * 256 + b9) * 256 + b10) * 256 + b11) := hm.2.2.symm
    have : rest.length ≤ s.length := by simp [hr]
    simp only [List.length_cons]
    omega

/-- Dispatch of one framed record (the switch in the body of mrt_parse),
with all three sinks present.  Returns the sink invocations made for
this record and the updated peer context.  Types other than 12, 13, 16
and 17 are skipped (deprecated / unsupported / unknown, a verbose-only
diagnostic in the source); likewise unknown subtypes. -/
def mrt_dispatch (h : MrtHdr) (pl : List Nat) (pctx : Option MrtPeer) :
    PRes (List Event × Option MrtPeer) :=
  if h.mtype = 12 then
    if h.subtype = 1 ∨ h.subtype = 2 then
      match mrt_parse_dump h pl pctx with
      | .ok (some r, p) => .ok ([.dump r (some p)], some p)
      | .ok (none, p) => .ok ([], some p)
      | .err => .err
      | .fatal => .fatal
      | .oob => .oob
    else .ok ([], pctx)
  else if h.mtype = 13 then
    if h.subtype = 1 then
      match mrt_parse_v2_peer pl with
      | .ok p => .ok ([], some p)
      | .err => .ok ([], none)
      | .fatal => .fatal
      | .oob => .oob
    else if h.subtype = 2 ∨ h.subtype = 3 ∨ h.subtype = 4 ∨ h.subtype = 5 ∨ h.subtype = 6
        ∨ h.subtype = 8 ∨ h.subtype = 9 ∨ h.subtype = 10 ∨ h.subtype = 11
        ∨ h.subtype = 12 then
      match mrt_parse_v2_rib h pl with
      | .ok r => .ok ([.dump r pctx], pctx)
      | .err => .ok ([], pctx)
      | .fatal => .fatal
      | .oob => .oob
    else .ok ([], pctx)
  else if h.mtype = 16 ∨ h.mtype = 17 then
    if h.subtype = 0 ∨ h.subtype = 5 then
      match mrt_parse_state h pl with
      | .ok s => .ok ([.state s], pctx)
      | .err => .ok ([], pctx)
      | .fatal => .fatal
      | .oob => .oob
    else if h.subtype = 1 ∨ h.subtype = 4 ∨ h.subtype = 6 ∨ h.subtype = 7 ∨ h.subtype = 8
        ∨ h.subtype = 9 ∨ h.subtype = 10 ∨ h.subtype = 11 then
      match mrt_parse_msg h pl with
      | .ok m => .ok ([.message m], pctx)
      | .err => .ok ([], pctx)
      | .fatal => .fatal
      | .oob => .oob
    else if h.subtype = 2 then
      match mrt_parse_dump_mp h pl pctx with
      | .ok (some r, p) => .ok ([.dump r (some p)], some p)
      | .ok (none, p) => .ok ([], some p)
      | .err => .err
      | .fatal => .fatal
      | .oob => .oob
    else .ok ([], pctx)
  else .ok ([], pctx)

/-- The while loop of mrt_parse: read a framed record, dispatch it,
continue with the remaining stream; a failed header or payload read
ends the stream cleanly. -/
def mrt_parse_go (pctx : Option MrtPeer) (s : List Nat) : PRes (List Event) :=
  match hm : mrt_read_msg s with
  | none => .ok []
  | some (h, pl, rest) =>
    match mrt_dispatch h pl pctx with
    | .ok (evs, pctx2) =>
      match mrt_parse_go pctx2 rest with
      | .ok evs2 => .ok (evs ++ evs2)
      | .err => .err
      | .fatal => .fatal
      | .oob => .oob
    | .err => .err
    | .fatal => .fatal
    | .oob => .oob
termination_by s.length
decreasing_by
  have := mrt_read_msg_length hm
  omega

/-- mrt_parse: run the framing loop on a whole byte stream with an
initially empty peer context, collecting the sink invocations. -/
def mrt_parse (s : List Nat) : PRes (List Event) :=
  mrt_parse_go none s

theorem mrt_parse_go_eq (pctx : Option MrtPeer) (s : List Nat) :
    mrt_parse_go pctx s =
      match mrt_read_msg s with
      | none => .ok []
      | some (h, pl, rest) =>
        match mrt_dispatch h pl pctx with
        | .ok (evs, pctx2) =>
          match mrt_parse_go pctx2 rest with
          | .ok evs2 => .ok (evs ++ evs2)
          | .err => .err
          | .fatal => .fatal
          | .oob => .oob
        | .err => .err
        | .fatal => .fatal
        | .oob => .oob := by
  rw [mrt_parse_go]
  split <;> rename_i heq <;> simp [heq]

/-- Big-endian 2-byte encoding of a 16-bit value. -/
def be16enc (n : Nat) : List Nat := [n / 256 % 256, n % 256]

/-- Big-endian 4-byte encoding of a 32-bit value. -/
def be32enc (n : Nat) : List Nat :=
  [n / 16777216 % 256, n / 65536 % 256, n / 256 % 256, n % 256]

theorem rd16_be16enc (n : Nat) (hn : n < 65536) (r : List Nat) :
    rd16 (be16enc n ++ r) = .ok (n, r) := by
  have h : 256 * (n / 256 % 256) + n % 256 = n := by omega
  simp [be16enc, h]

theorem rd32_be32enc (n : Nat) (hn : n < 4294967296) (r : List Nat) :
    rd32 (be32enc n ++ r) = .ok (n, r) := by
  have h : ((n / 16777216 % 256 * 256 + n / 65536 % 256) * 256 + n / 256 % 256) * 256
      + n % 256 = n := by omega
  simp [be32enc, h]

/-- One AS_PATH segment in abstract form: a segment type byte and the
list of AS numbers. -/
structure AsSeg where
  stype : Nat
  asns : List Nat
deriving DecidableEq, Repr

/-- 4-byte-ASN wire encoding of an AS_PATH (the form mrt_aspath_inflate
produces): seg type, ASN count, then each ASN on 4 bytes. -/
def encodeSeg4 (s : AsSeg) : List Nat :=
  s.stype :: s.asns.length :: (s.asns.map be32enc).flatten

def encode4 (xs : List AsSeg) : List Nat := (xs.map encodeSeg4).flatten

/-- Modelled from the spec: aspath_deflate (spec section 8) is not part
of this repository's source; per the claim it encodes a 4-byte-ASN
AS_PATH with 2-byte ASNs, segment structure unchanged: seg type, ASN
count, then each ASN on 2 bytes. -/
def encodeSeg2 (s : AsSeg) : List Nat :=
  s.stype :: s.asns.length :: (s.asns.map be16enc).flatten

def encode2 (xs : List AsSeg) : List Nat := (xs.map encodeSeg2).flatten

theorem flat_be16_length (xs : List Nat) :
    ((xs.map be16enc).flatten).length = 2 * xs.length := by
  induction xs with
  | nil => simp
  | cons a t ih => simp [be16enc, ih]; omega

theorem flat_be32_length (xs : List Nat) :
    ((xs.map be32enc).flatten).length = 4 * xs.length := by
  induction xs with
  | nil => simp
  | cons a t ih => simp [be32enc, ih]; omega

theorem encodeSeg2_length (s : AsSeg) : (encodeSeg2 s).length = 2 + 2 * s.asns.length := by
  simp only [encodeSeg2, List.length_cons, flat_be16_length]
  omega

theorem encodeSeg4_length (s : AsSeg) : (encodeSeg4 s).length = 2 + 4 * s.asns.length := by
  simp only [encodeSeg4, List.length_cons, flat_be32_length]
  omega

theorem encode2_cons (s : AsSeg) (xs : List AsSeg) :
    encode2 (s :: xs) = encodeSeg2 s ++ encode2 xs := by
  simp [encode2]

theorem encode4_cons (s : AsSeg) (xs : List AsSeg) :
    encode4 (s :: xs) = encodeSeg4 s ++ encode4 xs := by
  simp [encode4]

/-- The length field bytes of a BGP path attribute header: two bytes
when the extended-length flag 0x10 is set, one byte otherwise. -/
def attrLenBytes (flags n : Nat) : List Nat :=
  if flags &&& 16 ≠ 0 then [n / 256, n % 256] else [n]

/-- A serialized BGP path attribute TLV whose declared length equals the
payload length. -/
def mkTlv (flags ty : Nat) (payload : List Nat) : List Nat :=
  flags :: ty :: (attrLenBytes flags payload.length ++ payload)

theorem mkTlv_length (flags ty : Nat) (payload : List Nat) :
    (mkTlv flags ty payload).length
      = (if flags &&& 16 ≠ 0 then 4 else 3) + payload.length := by
  simp only [mkTlv, attrLenBytes]
  split <;> simp <;> omega
theorem inflateSize_eq (l : List Nat) (olen nlen : Nat) :
    inflateSize l olen nlen =
      if olen = 0 then .ok nlen
      else
        match l with
        | _t :: sl :: _ =>
          if olen < 2 + 2 * sl then .err
          else inflateSize (l.drop (2 + 2 * sl)) (olen - (2 + 2 * sl))
              ((nlen + 2 + 4 * sl) % 65536)
        | _ => .oob := by
  rcases l with _ | ⟨t, _ | ⟨sl, r⟩⟩ <;> rw [inflateSize] <;>
    first
    | (intro a b r h; simp at h)
    | (by_cases h : olen = 0 <;> simp [h])

theorem inflateSize_cons (t sl : Nat) (r : List Nat) (olen nlen : Nat) (h0 : olen ≠ 0) :
    inflateSize (t :: sl :: r) olen nlen =
      if olen < 2 + 2 * sl then .err
      else inflateSize ((t :: sl :: r).drop (2 + 2 * sl)) (olen - (2 + 2 * sl))
          ((nlen + 2 + 4 * sl) % 65536) := by
  rw [inflateSize_eq, if_neg h0]

theorem inflateCopy_eq (l : List Nat) (remOut : Nat) :
    inflateCopy l remOut =
      if remOut = 0 then .ok []
      else
        match l with
        | t :: sl :: rest =>
          match emitAsns sl rest with
          | .ok (chunk, rest2) =>
            match inflateCopy rest2 (remOut - (2 + 4 * sl)) with
            | .ok out => .ok (t :: sl :: chunk ++ out)
            | e => e
          | .err => .err
          | .fatal => .fatal
          | .oob => .oob
        | _ => .oob := by
  rcases l with _ | ⟨t, _ | ⟨sl, r⟩⟩ <;> rw [inflateCopy] <;>
    first
    | (intro a b r h; simp at h)
    | (by_cases h : remOut = 0 <;> simp [h])

theorem inflateCopy_cons (t sl : Nat) (rest : List Nat) (remOut : Nat) (h0 : remOut ≠ 0) :
    inflateCopy (t :: sl :: rest) remOut =
      match emitAsns sl rest with
      | .ok (chunk, rest2) =>
        match inflateCopy rest2 (remOut - (2 + 4 * sl)) with
        | .ok out => .ok (t :: sl :: chunk ++ out)
        | e => e
      | .err => .err
      | .fatal => .fatal
      | .oob => .oob := by
  rw [inflateCopy_eq, if_neg h0]

theorem drop_two_add {α : Type} (k : Nat) (a b : α) (t : List α) :
    List.drop (2 + k) (a :: b :: t) = List.drop k t := by
  rw [show 2 + k = k + 1 + 1 from by omega]
  simp [List.drop_succ_cons]

theorem inflateSize_encode2 (xs : List AsSeg) (tail : List Nat) (acc : Nat)
    (hacc : acc < 65536) :
    inflateSize (encode2 xs ++ tail) (encode2 xs).length acc
      = .ok ((acc + (encode4 xs).length) % 65536) := by
  induction xs generalizing tail acc with
  | nil =>
    rw [inflateSize_eq]
    simp [encode2, encode4, Nat.mod_eq_of_lt hacc]
  | cons s xs ih =>
    have hshape : encode2 (s :: xs) ++ tail
        = s.stype :: s.asns.length :: ((s.asns.map be16enc).flatten ++ (encode2 xs ++ tail)) := by
      simp [encode2_cons, encodeSeg2, List.append_assoc]
    have hlen : (encode2 (s :: xs)).length = 2 + 2 * s.asns.length + (encode2 xs).length := by
      rw [encode2_cons, List.length_append, encodeSeg2_length]
    have h4 : (encode4 (s :: xs)).length = 2 + 4 * s.asns.length + (encode4 xs).length := by
      rw [encode4_cons, List.length_append, encodeSeg4_length]
    have hdrop : List.drop (2 + 2 * s.asns.length)
        (s.stype :: s.asns.length :: ((s.asns.map be16enc).flatten ++ (encode2 xs ++ tail)))
        = encode2 xs ++ tail := by
      rw [drop_two_add, show 2 * s.asns.length = (s.asns.map be16enc).flatten.length from
        (flat_be16_length s.asns).symm, List.drop_left]
    have hih := ih tail ((acc + 2 + 4 * s.asns.length) % 65536) (Nat.mod_lt _ (by norm_num))
    rw [hshape, hlen, inflateSize_cons _ _ _ _ _ (by omega), if_neg (by omega), hdrop,
      Nat.add_sub_cancel_left, hih, h4]
    congr 1
    omega

theorem emitAsns_encode (asns : List Nat) (tail : List Nat) (h : ∀ a ∈ asns, a < 65536) :
    emitAsns asns.length ((asns.map be16enc).flatten ++ tail)
      = .ok ((asns.map be32enc).flatten, tail) := by
  induction asns with
  | nil => simp [emitAsns]
  | cons a t ih =>
    have ha : a < 65536 := h a (by simp)
    have h1 : a / 16777216 % 256 = 0 := by omega
    have h2 : a / 65536 % 256 = 0 := by omega
    have h3 : a / 256 % 256 = a / 256 := by omega
    have hih := ih (fun x hx => h x (by simp [hx]))
    simp only [List.map_cons, List.flatten_cons, be16enc, List.cons_append, List.nil_append,
      List.length_cons, emitAsns]
    simp [hih, be32enc, h1, h2, h3]

theorem inflateCopy_encode2 (xs : List AsSeg) (tail : List Nat)
    (h : ∀ s ∈ xs, ∀ a ∈ s.asns, a < 65536) :
    inflateCopy (encode2 xs ++ tail) (encode4 xs).length = .ok (encode4 xs) := by
  induction xs generalizing tail with
  | nil => rw [inflateCopy_eq]; simp [encode2, encode4]
  | cons s xs ih =>
    have hshape : encode2 (s :: xs) ++ tail
        = s.stype :: s.asns.length :: ((s.asns.map be16enc).flatten ++ (encode2 xs ++ tail)) := by
      simp [encode2_cons, encodeSeg2, List.append_assoc]
    have h4 : (encode4 (s :: xs)).length = 2 + 4 * s.asns.length + (encode4 xs).length := by
      rw [encode4_cons, List.length_append, encodeSeg4_length]
    have hih := ih tail (fun x hx a ha => h x (by simp [hx]) a ha)
    rw [hshape, h4, inflateCopy_cons _ _ _ _ (by omega),
      emitAsns_encode s.asns (encode2 xs ++ tail) (h s (by simp))]
    simp only [Nat.add_sub_cancel_left]
    simp [hih, encode4_cons, encodeSeg4]

/-- Claim C5: inflating the 2-byte-ASN deflation of a well-formed
4-byte-ASN AS path x gives back exactly x, and the reported output
length is the byte length of x.  Well-formedness: each segment holds at
most 255 ASNs (the count is a single wire byte), every ASN fits in 16
bits (the claim's restriction), and x fits in a BGP attribute (its byte
length is at most 65535, so the uint16_t length accumulator of
mrt_aspath_inflate does not wrap). -/
theorem c5_roundtrip (xs : List AsSeg)
    (hseg : ∀ s ∈ xs, s.asns.length ≤ 255 ∧ ∀ a ∈ s.asns, a < 65536)
    (hlen : (encode4 xs).length ≤ 65535) :
    mrt_aspath_inflate (encode2 xs) (encode2 xs).length
      = .ok (encode4 xs, (encode4 xs).length) := by
  unfold mrt_aspath_inflate
  have hs : inflateSize (encode2 xs) (encode2 xs).length 0 = .ok (encode4 xs).length := by
    have h := inflateSize_encode2 xs [] 0 (by norm_num)
    rw [List.append_nil] at h
    rw [h]
    congr 1
    omega
  have hc : inflateCopy (encode2 xs) (encode4 xs).length = .ok (encode4 xs) := by
    have h := inflateCopy_encode2 xs [] (fun s hsx => (hseg s hsx).2)
    rwa [List.append_nil] at h
  rw [hs]
  simp [hc]

/-- Claim C5 witness (the spec's scenario 3): the one-segment AS
sequence (100, 200) deflates to 02 02 00 64 00 C8 and inflates back to
the 4-byte form with reported length 10. -/
theorem c5_roundtrip_witness :
    (∀ s ∈ [AsSeg.mk 2 [100, 200]], s.asns.length ≤ 255 ∧ ∀ a ∈ s.asns, a < 65536)
    ∧ mrt_aspath_inflate [2, 2, 0, 100, 0, 200] 6
      = .ok ([2, 2, 0, 0, 0, 100, 0, 0, 0, 200], 10) := by
  have hw : ∀ s ∈ [AsSeg.mk 2 [100, 200]], s.asns.length ≤ 255 ∧ ∀ a ∈ s.asns, a < 65536 := by
    intro s hs
    simp only [List.mem_singleton] at hs
    subst hs
    refine ⟨by norm_num, ?_⟩
    intro a ha
    simp only [List.mem_cons, List.not_mem_nil, or_false] at ha
    rcases ha with h | h <;> omega
  refine ⟨hw, ?_⟩
  have h := c5_roundtrip [AsSeg.mk 2 [100, 200]] hw
    (by norm_num [encode4, encodeSeg4, be32enc])
  norm_num [encode2, encodeSeg2, be16enc, encode4, encodeSeg4, be32enc] at h
  exact h

/-- The exact (unwrapped) inflated size that the first pass of
mrt_aspath_inflate accounts for: the sum of 2 + 4 * seg_len over the
segments it walks, as an unbounded natural number. -/
def inflatedSizeSpec (l : List Nat) (olen : Nat) : Nat :=
  if h : olen = 0 then 0
  else
    match l with
    | _t :: sl :: _ =>
      if olen < 2 + 2 * sl then 0
      else (2 + 4 * sl) + inflatedSizeSpec (l.drop (2 + 2 * sl)) (olen - (2 + 2 * sl))
    | _ => 0
termination_by olen
decreasing_by omega

theorem inflatedSizeSpec_eq (l : List Nat) (olen : Nat) :
    inflatedSizeSpec l olen =
      if olen = 0 then 0
      else
        match l with
        | _t :: sl :: _ =>
          if olen < 2 + 2 * sl then 0
          else (2 + 4 * sl) + inflatedSizeSpec (l.drop (2 + 2 * sl)) (olen - (2 + 2 * sl))
        | _ => 0 := by
  rcases l with _ | ⟨t, _ | ⟨sl, r⟩⟩ <;> rw [inflatedSizeSpec] <;>
    first
    | (intro a b r h; simp at h)
    | (by_cases h : olen = 0 <;> simp [h])

theorem inflateSize_mod (l : List Nat) (olen acc : Nat) :
    acc < 65536 → ∀ nl, inflateSize l olen acc = .ok nl →
      nl = (acc + inflatedSizeSpec l olen) % 65536 := by
  induction l, olen, acc using inflateSize.induct with
  | case1 l acc =>
    intro hacc nl h
    rw [inflateSize_eq] at h
    simp at h
    rw [inflatedSizeSpec_eq]
    simp
    omega
  | case2 olen acc h0 t sl r hlt =>
    intro hacc nl h
    rw [inflateSize_eq, if_neg h0] at h
    simp [hlt] at h
  | case3 olen acc h0 t sl r hlt ih =>
    intro hacc nl h
    rw [inflateSize_eq, if_neg h0] at h
    simp only [if_neg hlt] at h
    rw [inflatedSizeSpec_eq, if_neg h0]
    simp only [if_neg hlt]
    have := ih (Nat.mod_lt _ (by norm_num)) nl h
    omega
  | case4 l olen acc h0 hsh =>
    intro hacc nl h
    rw [inflateSize_eq, if_neg h0] at h
    rcases l with _ | ⟨a, _ | ⟨b, r⟩⟩
    · simp at h
    · simp at h
    · exact absurd rfl (hsh a b r)

/-- Claim C9: mrt_aspath_inflate accumulates the output length in a
uint16_t, so on every accepted input the reported newlen is the exact
inflated size (the sum of 2 + 4 * seg_len over the walked segments)
reduced modulo 2^16; when the exact size exceeds 65535 the reported
length is therefore strictly smaller than the true size. -/
theorem c9_newlen_wraps (l : List Nat) (len : Nat) (out : List Nat) (nl : Nat)
    (h : mrt_aspath_inflate l len = .ok (out, nl)) :
    nl = inflatedSizeSpec l len % 65536
      ∧ (65535 < inflatedSizeSpec l len → nl < inflatedSizeSpec l len) := by
  unfold mrt_aspath_inflate at h
  cases hs : inflateSize l len 0 with
  | ok nl0 =>
    rw [hs] at h
    simp only [] at h
    cases hc : inflateCopy l nl0 with
    | ok out0 =>
      rw [hc] at h
      simp only [PRes.ok.injEq, Prod.mk.injEq] at h
      have hmod := inflateSize_mod l len 0 (by norm_num) nl0 hs
      rw [Nat.zero_add] at hmod
      have hn : nl = nl0 := h.2.symm
      subst hn
      refine ⟨hmod, ?_⟩
      intro hbig
      have hlt : nl < 65536 := by omega
      omega
    | err => rw [hc] at h; simp at h
    | fatal => rw [hc] at h; simp at h
    | oob => rw [hc] at h; simp at h
  | err => rw [hs] at h; simp at h
  | fatal => rw [hs] at h; simp at h
  | oob => rw [hs] at h; simp at h

/-- Claim C9 witness: on the deflated path of scenario 3 the inflation
is accepted and the reported length 10 is the exact size mod 2^16. -/
theorem c9_newlen_wraps_witness :
    mrt_aspath_inflate [2, 2, 0, 100, 0, 200] 6 = .ok ([2, 2, 0, 0, 0, 100, 0, 0, 0, 200], 10)
      ∧ (10 : Nat) = inflatedSizeSpec [2, 2, 0, 100, 0, 200] 6 % 65536 := by
  have he : mrt_aspath_inflate [2, 2, 0, 100, 0, 200] 6
      = .ok ([2, 2, 0, 0, 0, 100, 0, 0, 0, 200], 10) := by
    norm_num [mrt_aspath_inflate, inflateSize_eq, inflateCopy_eq, emitAsns]
  exact ⟨he, (c9_newlen_wraps _ _ _ _ he).1⟩
theorem attrStep_tlv_head (aid : Aid) (as4 : Bool) (re : MrtRibEntry) (flags ty n : Nat)
    (tail : List Nat) (alen : Int) (hn : n < 65536) :
    attrStep aid as4 re (flags :: ty :: (attrLenBytes flags n ++ tail)) alen
      = if alen < 3 then .err
        else if flags &&& 16 ≠ 0 then
          if alen - 2 < 2 then .err
          else attrBody aid as4 re (flags :: ty :: (attrLenBytes flags n ++ tail)) 4 ty n
              tail (alen - 4)
        else attrBody aid as4 re (flags :: ty :: (attrLenBytes flags n ++ tail)) 3 ty n
            tail (alen - 3) := by
  by_cases h3 : alen < 3
  · simp [attrStep, h3]
  · by_cases hf : flags &&& 16 ≠ 0
    · by_cases h2 : alen - 2 < 2
      · simp [attrStep, attrLenBytes, h3, hf, h2]
      · have hrec : 256 * (n / 256) + n % 256 = n := by omega
        simp [attrStep, attrLenBytes, h3, hf, h2, hrec]
    · simp [attrStep, attrLenBytes, h3, hf]

/-- Claim C2 fails on the code (code bug): a TLV whose declared length
exceeds the remaining span is not rejected.  The 3-byte span
00 F0 05 declares a 5-byte payload with 0 bytes remaining; when the
record continues past the span, mrt_extract_attr copies the 5 bytes
that lie beyond the span and returns success (the span-length counter
goes negative and the loop simply exits); when the record ends at the
span end the copy reads out of bounds instead of returning -1. -/
theorem c2_overrun_tlv_not_rejected :
    mrt_extract_attr emptyRibEntry [0, 240, 5, 1, 2, 3, 4, 5] 3 .inet false
        = .ok { emptyRibEntry with nattrs := 1, attrs := [[0, 240, 5, 1, 2, 3, 4, 5]] }
      ∧ mrt_extract_attr emptyRibEntry [0, 240, 5] 3 .inet false = .oob := by
  constructor
  · norm_num [mrt_extract_attr, attrLoop_eq, attrStep, attrBody, skipAttr, emptyRibEntry]
  · norm_num [mrt_extract_attr, attrLoop_eq, attrStep, attrBody, skipAttr, emptyRibEntry]

/-- Claim C10: a NEXT_HOP (type 3) attribute whose declared length is
not 4 makes mrt_extract_attr fail the whole entry regardless of the
record's address family, the span behind the length field and the
remaining span length (the length check precedes the family check); a
length-4 NEXT_HOP in a record of any family other than IPv4 is skipped
without storing anything into the entry. -/
theorem c10_nexthop_length_check :
    (∀ (flags n : Nat) (tail : List Nat) (aid : Aid) (as4 : Bool) (re : MrtRibEntry)
       (alen : Int), n < 65536 → n ≠ 4 →
       mrt_extract_attr re (flags :: 3 :: (attrLenBytes flags n ++ tail)) alen aid as4 = .err)
    ∧ (∀ (flags : Nat) (p : List Nat) (aid : Aid) (as4 : Bool),
       aid ≠ .inet → p.length = 4 →
       mrt_extract_attr emptyRibEntry (mkTlv flags 3 p)
         ((mkTlv flags 3 p).length : Int) aid as4 = .ok emptyRibEntry) := by
  constructor
  · intro flags n tail aid as4 re alen hn hne
    unfold mrt_extract_attr
    rw [attrLoop_eq, attrStep_tlv_head aid as4 re flags 3 n tail alen hn]
    by_cases h3 : alen < 3
    · simp [h3]
    · by_cases hf : flags &&& 16 ≠ 0
      · by_cases h2 : alen - 2 < 2
        · simp [h3, hf, h2]
        · simp [h3, hf, h2, attrBody, hne]
      · simp [h3, hf, attrBody, hne]
  · intro flags p aid as4 haid hp
    unfold mrt_extract_attr
    have hmk : mkTlv flags 3 p = flags :: 3 :: (attrLenBytes flags p.length ++ p) := rfl
    have hlen : (mkTlv flags 3 p).length = (if flags &&& 16 ≠ 0 then 4 else 3) + 4 := by
      rw [mkTlv_length, hp]
    rw [attrLoop_eq, hmk, attrStep_tlv_head aid as4 emptyRibEntry flags 3 p.length p _
      (by omega)]
    have hlen2 : ((flags :: 3 :: (attrLenBytes flags p.length ++ p)).length : Int)
        = (((if flags &&& 16 ≠ 0 then 4 else 3) + 4 : Nat) : Int) := by
      rw [← hmk, hlen]
    rw [hlen2]
    by_cases hf : flags &&& 16 ≠ 0
    · simp only [if_pos hf]
      norm_num [attrBody, hp, haid, skipAttr]
    · simp only [if_neg hf]
      norm_num [attrBody, hp, haid, skipAttr]

/-- Claim C10 witness: a NEXT_HOP of declared length 5 at the head of an
8-byte span is rejected for an IPv6 record, and a length-4 NEXT_HOP in
an IPv6 record is skipped leaving the entry untouched. -/
theorem c10_nexthop_length_check_witness :
    mrt_extract_attr emptyRibEntry [64, 3, 5, 9, 9, 9, 9, 9] 8 .inet6 false = .err
      ∧ mrt_extract_attr emptyRibEntry [64, 3, 4, 9, 9, 9, 9] 7 .inet6 false
        = .ok emptyRibEntry := by
  constructor
  · have h := c10_nexthop_length_check.1 64 5 [9, 9, 9, 9, 9] .inet6 false emptyRibEntry 8
      (by norm_num) (by norm_num)
    norm_num [attrLenBytes] at h
    exact h
  · have h := c10_nexthop_length_check.2 64 [9, 9, 9, 9] .inet6 false
      (by simp) (by norm_num)
    norm_num [mkTlv, attrLenBytes] at h
    exact h
/-- Claim C4: with as4_aspath = false, an AS4_PATH (type 17) attribute
replaces the aspath previously inflated from AS_PATH by a verbatim copy
of its payload (the block here is an AS_PATH TLV followed by an
AS4_PATH TLV, and the final aspath is exactly the AS4_PATH payload);
with as4_aspath = true an AS4_PATH attribute falls through to the
unknown-attribute path and is appended in full (flags, type, length
field, payload) to the entry's extra attributes. -/
theorem c4_as4path_handling :
    (∀ (f1 f2 : Nat) (p1 p2 infl : List Nat) (ilen : Nat) (aid : Aid),
       f1 &&& 16 = 0 → f2 &&& 16 = 0 → p1.length < 256 → p2.length < 256 →
       mrt_aspath_inflate (p1 ++ mkTlv f2 17 p2) p1.length = .ok (infl, ilen) →
       mrt_extract_attr emptyRibEntry (mkTlv f1 2 p1 ++ mkTlv f2 17 p2)
           (((mkTlv f1 2 p1 ++ mkTlv f2 17 p2).length : Nat) : Int) aid false
         = .ok { emptyRibEntry with aspath := some p2, aspath_len := p2.length })
    ∧ (∀ (f : Nat) (p : List Nat) (aid : Aid),
       f &&& 16 = 0 → p.length < 256 →
       mrt_extract_attr emptyRibEntry (mkTlv f 17 p) ((mkTlv f 17 p).length : Int) aid true
         = .ok { emptyRibEntry with nattrs := 1, attrs := [mkTlv f 17 p] }) := by
  have hstep2 : ∀ (f2 : Nat) (p2 : List Nat) (aid : Aid) (re : MrtRibEntry),
      f2 &&& 16 = 0 → p2.length < 256 →
      attrLoop aid false re (mkTlv f2 17 p2) ((3 + p2.length : Nat) : Int)
        = .ok { re with aspath := some p2, aspath_len := p2.length } := by
    intro f2 p2 aid re hf2 hp2
    have hshape2 : mkTlv f2 17 p2 = f2 :: 17 :: (attrLenBytes f2 p2.length ++ p2) := rfl
    rw [attrLoop_eq, hshape2,
      attrStep_tlv_head aid false re f2 17 p2.length p2 _ (by omega)]
    rw [if_neg (by push_cast; omega), if_neg (by simp [hf2])]
    simp only [attrBody]
    norm_num [skipAttr, List.take_length]
  constructor
  · intro f1 f2 p1 p2 infl ilen aid hf1 hf2 hp1 hp2 hinfl
    unfold mrt_extract_attr
    have hshape : mkTlv f1 2 p1 ++ mkTlv f2 17 p2
        = f1 :: 2 :: (attrLenBytes f1 p1.length ++ (p1 ++ mkTlv f2 17 p2)) := by
      simp [mkTlv, List.append_assoc]
    have hlen : ((mkTlv f1 2 p1 ++ mkTlv f2 17 p2).length : Int)
        = ((3 + p1.length + (3 + p2.length) : Nat) : Int) := by
      rw [List.length_append, mkTlv_length, mkTlv_length]
      simp [hf1, hf2]
    rw [attrLoop_eq, hlen, hshape,
      attrStep_tlv_head aid false emptyRibEntry f1 2 p1.length (p1 ++ mkTlv f2 17 p2) _
        (by omega)]
    rw [if_neg (by push_cast; omega), if_neg (by simp [hf1])]
    simp only [attrBody]
    norm_num
    rw [hinfl]
    simp only [skipAttr, List.drop_left]
    have halen2 : (3 + (p1.length : Int) + (3 + (p2.length : Int)) - 3 - (p1.length : Int))
        = ((3 + p2.length : Nat) : Int) := by push_cast; ring
    rw [halen2, if_pos (by push_cast; omega)]
    exact hstep2 f2 p2 aid _ hf2 hp2
  · intro f p aid hf hp
    unfold mrt_extract_attr
    have hshape : mkTlv f 17 p = f :: 17 :: (attrLenBytes f p.length ++ p) := rfl
    have hlb : (attrLenBytes f p.length).length = 1 := by simp [attrLenBytes, hf]
    have hlen : ((mkTlv f 17 p).length : Int) = ((3 + p.length : Nat) : Int) := by
      rw [mkTlv_length]
      simp [hf]
    rw [attrLoop_eq, hlen, hshape,
      attrStep_tlv_head aid true emptyRibEntry f 17 p.length p _ (by omega)]
    rw [if_neg (by push_cast; omega), if_neg (by simp [hf])]
    simp only [attrBody]
    norm_num [emptyRibEntry, skipAttr]
    rw [if_pos (by rw [hlb]; omega)]
    have htake : List.take (3 + p.length) (f :: 17 :: (attrLenBytes f p.length ++ p))
        = f :: 17 :: (attrLenBytes f p.length ++ p) := by
      rw [show 3 + p.length = (f :: 17 :: (attrLenBytes f p.length ++ p)).length from by
        simp [hlb]; omega]
      exact List.take_length _
    rw [htake]
    norm_num

/-- Claim C4 witness: an AS_PATH TLV (one segment, ASN 100) followed by
an AS4_PATH TLV leaves the AS4_PATH payload as the entry's aspath when
as4_aspath is false, and with as4_aspath true the same AS4_PATH TLV is
appended verbatim to the extra attributes. -/
theorem c4_as4path_handling_witness :
    mrt_extract_attr emptyRibEntry [64, 2, 4, 2, 1, 0, 100, 64, 17, 6, 2, 1, 0, 0, 0, 200]
        16 .inet false
      = .ok { emptyRibEntry with aspath := some [2, 1, 0, 0, 0, 200], aspath_len := 6 }
    ∧ mrt_extract_attr emptyRibEntry [64, 17, 6, 2, 1, 0, 0, 0, 200] 9 .inet true
      = .ok { emptyRibEntry with nattrs := 1, attrs := [[64, 17, 6, 2, 1, 0, 0, 0, 200]] } := by
  constructor
  · have hinfl : mrt_aspath_inflate ([2, 1, 0, 100] ++ mkTlv 64 17 [2, 1, 0, 0, 0, 200]) 4
        = .ok ([2, 1, 0, 0, 0, 100], 6) := by
      have hl : [2, 1, 0, 100] ++ mkTlv 64 17 [2, 1, 0, 0, 0, 200]
          = [2, 1, 0, 100, 64, 17, 6, 2, 1, 0, 0, 0, 200] := by decide
      rw [hl]
      norm_num [mrt_aspath_inflate, inflateSize_eq, inflateCopy_eq, emitAsns]
    have h := c4_as4path_handling.1 64 64 [2, 1, 0, 100] [2, 1, 0, 0, 0, 200]
      [2, 1, 0, 0, 0, 100] 6 .inet (by decide) (by decide) (by norm_num) (by norm_num)
      (by exact_mod_cast hinfl)
    have hl2 : mkTlv 64 2 [2, 1, 0, 100] ++ mkTlv 64 17 [2, 1, 0, 0, 0, 200]
        = [64, 2, 4, 2, 1, 0, 100, 64, 17, 6, 2, 1, 0, 0, 0, 200] := by decide
    rw [hl2] at h
    norm_num at h
    exact h
  · have h := c4_as4path_handling.2 64 [2, 1, 0, 0, 0, 200] .inet (by decide) (by norm_num)
    have hl2 : mkTlv 64 17 [2, 1, 0, 0, 0, 200] = [64, 17, 6, 2, 1, 0, 0, 0, 200] := by decide
    rw [hl2] at h
    norm_num at h
    exact h
/-- Claim C3 fails as stated (counterexample): an MP_REACH_NLRI TLV with
payload length 1 and first byte 5 takes the legacy path (5 is not
payload_length - 1 = 0); the claim then demands failure because the
normalized length is below every family threshold, but the source
decrements the uint16_t attr_len below zero, wrapping it to 65534, so
the length checks pass and the decoder reads out of bounds instead of
returning -1. -/
theorem c3_wrap_counterexample :
    mrt_extract_attr emptyRibEntry [64, 14, 1, 5] 4 .inet6 false = .oob
      ∧ mrt_extract_attr emptyRibEntry [64, 14, 1, 5] 4 .inet6 false ≠ .err := by
  have h : mrt_extract_attr emptyRibEntry [64, 14, 1, 5] 4 .inet6 false = .oob := by
    norm_num [mrt_extract_attr, attrLoop_eq, attrStep, attrBody, mpReach, mpReachBody,
      skipAttr]
  exact ⟨h, by rw [h]; simp⟩

theorem mpReachBody_run (aid : Aid) (re : MrtRibEntry) (pl : List Nat) (n : Nat)
    (hn : pl.length = n) :
    mpReachBody aid re pl (n : Int) n
      = match aid with
        | .inet6 =>
          if n < 17 then .err
          else .ok ({ re with nexthop := ⟨.inet6, (pl.drop 1).take 16⟩ }, pl.drop n, 0)
        | .vpn4 =>
          if n < 12 then .err
          else if n = 12 then .oob
          else .ok ({ re with nexthop := ⟨.vpn4, (pl.drop 9).take 4⟩ }, pl.drop n, 0)
        | .vpn6 =>
          if n < 24 then .err
          else if n = 24 then .oob
          else .ok ({ re with nexthop := ⟨.vpn6, (pl.drop 9).take 16⟩ }, pl.drop n, 0)
        | _ => .ok (re, pl.drop n, 0) := by
  have hz : (n : Int) - (n : Int) = 0 := by ring
  cases aid <;> simp only [mpReachBody, skipAttr, hz]
  · by_cases h17 : n < 17
    · simp [h17]
    · rw [if_neg h17, if_pos (by omega)]
      simp [h17]
  · by_cases h12 : n < 12
    · simp [h12]
    · rw [if_neg h12]
      by_cases heq : n = 12
      · rw [if_neg (by omega)]
        simp [h12, heq]
      · rw [if_pos (by omega)]
        simp [h12, heq]
  · by_cases h24 : n < 24
    · simp [h24]
    · rw [if_neg h24]
      by_cases heq : n = 24
      · rw [if_neg (by omega)]
        simp [h24, heq]
      · rw [if_pos (by omega)]
        simp [h24, heq]
theorem c3_core (aid : Aid) (tlv : List Nat) (hdr : Nat) (p0 : Nat) (rest : List Nat)
    (hlen : (p0 :: rest).length < 65536)
    (hw : p0 = (p0 :: rest).length - 1 ∨ 3 ≤ (p0 :: rest).length) :
    (match attrBody aid false emptyRibEntry tlv hdr 14 (p0 :: rest).length (p0 :: rest)
        (((p0 :: rest).length : Nat) : Int) with
     | .ok (re2, l2, alen2) => if 0 < alen2 then attrLoop aid false re2 l2 alen2 else .ok re2
     | .err => .err
     | .fatal => .fatal
     | .oob => .oob)
      = match aid with
        | .inet6 =>
          if (if p0 = (p0 :: rest).length - 1 then (p0 :: rest).length
              else (p0 :: rest).length - 3) < 17 then .err
          else .ok { emptyRibEntry with nexthop := ⟨.inet6,
            (((if p0 = (p0 :: rest).length - 1 then p0 :: rest
               else (p0 :: rest).drop 3).drop 1).take 16)⟩ }
        | .vpn4 =>
          if (if p0 = (p0 :: rest).length - 1 then (p0 :: rest).length
              else (p0 :: rest).length - 3) < 12 then .err
          else if (if p0 = (p0 :: rest).length - 1 then (p0 :: rest).length
              else (p0 :: rest).length - 3) = 12 then .oob
          else .ok { emptyRibEntry with nexthop := ⟨.vpn4,
            (((if p0 = (p0 :: rest).length - 1 then p0 :: rest
               else (p0 :: rest).drop 3).drop 9).take 4)⟩ }
        | .vpn6 =>
          if (if p0 = (p0 :: rest).length - 1 then (p0 :: rest).length
              else (p0 :: rest).length - 3) < 24 then .err
          else if (if p0 = (p0 :: rest).length - 1 then (p0 :: rest).length
              else (p0 :: rest).length - 3) = 24 then .oob
          else .ok { emptyRibEntry with nexthop := ⟨.vpn6,
            (((if p0 = (p0 :: rest).length - 1 then p0 :: rest
               else (p0 :: rest).drop 3).drop 9).take 16)⟩ }
        | _ => .ok emptyRibEntry := by
  simp only [List.length_cons] at hlen hw ⊢
  simp only [attrBody]
  norm_num
  simp only [mpReach]
  by_cases hrfc : p0 = rest.length
  · rw [if_pos (show (p0 : Int) = ((rest.length + 1 : Nat) : Int) - 1 by push_cast; omega)]
    rw [show (rest.length : Int) + 1 = ((rest.length + 1 : Nat) : Int) from by push_cast; ring]
    rw [mpReachBody_run aid emptyRibEntry (p0 :: rest) (rest.length + 1) (by simp)]
    simp only [if_pos hrfc]
    cases aid
    · simp
    · simp
    · by_cases h17 : rest.length + 1 < 17 <;> simp [h17]
    · by_cases h12 : rest.length + 1 < 12
      · simp [h12]
      · by_cases he : rest.length + 1 = 12 <;> simp [h12, he]
    · by_cases h24 : rest.length + 1 < 24
      · simp [h24]
      · by_cases he : rest.length + 1 = 24 <;> simp [h24, he]
  · have h3L : 2 ≤ rest.length := by
      rcases hw with hl | hr
      · exact absurd (by omega : p0 = rest.length) hrfc
      · omega
    rw [if_neg (show ¬(p0 : Int) = ((rest.length + 1 : Nat) : Int) - 1 by push_cast; omega)]
    rw [show (rest.length + 1 + 65533) % 65536 = rest.length - 2 from by omega]
    rw [show (rest.length : Int) + 1 - 3 = ((rest.length - 2 : Nat) : Int) from by omega]
    rw [mpReachBody_run aid emptyRibEntry (List.drop 3 (p0 :: rest)) (rest.length - 2)
      (by simp only [List.length_drop, List.length_cons]; omega)]
    simp only [if_neg hrfc, show rest.length + 1 - 3 = rest.length - 2 from by omega]
    cases aid
    · simp
    · simp
    · by_cases h17 : rest.length - 2 < 17 <;> simp [h17]
    · by_cases h12 : rest.length - 2 < 12
      · simp [h12]
      · by_cases he : rest.length - 2 = 12 <;> simp [h12, he]
    · by_cases h24 : rest.length - 2 < 24
      · simp [h24]
      · by_cases he : rest.length - 2 = 24 <;> simp [h24, he]

/-- Claim C3 as amended: for a single MP_REACH_NLRI TLV filling its
span, the decoder treats the payload as RFC 6396 encoded exactly when
the first payload byte equals payload_length - 1 and otherwise skips
the 3-byte legacy AFI/SAFI/reserved prelude; with nlen the normalized
length and npay the normalized payload, the IPv6 case fails unless
nlen >= 17 and otherwise stores the 16 bytes at offset 1; the VPNv4
(VPNv6) case fails when nlen < 12 (nlen < 24), reads one byte past the
payload at exactly nlen = 12 (nlen = 24) - out of bounds on an exact
span - and otherwise stores the 4 (16) bytes at offset 1 + 8; IPv4 and
unspecified records store no next hop.  The hypothesis excludes the
payloads shorter than 3 on the legacy path, where the 16-bit length
wraps (see the counterexample). -/
theorem c3_mp_reach_nexthop (flags p0 : Nat) (rest : List Nat) (aid : Aid)
    (hlen : (p0 :: rest).length < 65536)
    (hw : p0 = (p0 :: rest).length - 1 ∨ 3 ≤ (p0 :: rest).length) :
    mrt_extract_attr emptyRibEntry (mkTlv flags 14 (p0 :: rest))
        ((mkTlv flags 14 (p0 :: rest)).length : Int) aid false
      = match aid with
        | .inet6 =>
          if (if p0 = (p0 :: rest).length - 1 then (p0 :: rest).length
              else (p0 :: rest).length - 3) < 17 then .err
          else .ok { emptyRibEntry with nexthop := ⟨.inet6,
            (((if p0 = (p0 :: rest).length - 1 then p0 :: rest
               else (p0 :: rest).drop 3).drop 1).take 16)⟩ }
        | .vpn4 =>
          if (if p0 = (p0 :: rest).length - 1 then (p0 :: rest).length
              else (p0 :: rest).length - 3) < 12 then .err
          else if (if p0 = (p0 :: rest).length - 1 then (p0 :: rest).length
              else (p0 :: rest).length - 3) = 12 then .oob
          else .ok { emptyRibEntry with nexthop := ⟨.vpn4,
            (((if p0 = (p0 :: rest).length - 1 then p0 :: rest
               else (p0 :: rest).drop 3).drop 9).take 4)⟩ }
        | .vpn6 =>
          if (if p0 = (p0 :: rest).length - 1 then (p0 :: rest).length
              else (p0 :: rest).length - 3) < 24 then .err
          else if (if p0 = (p0 :: rest).length - 1 then (p0 :: rest).length
              else (p0 :: rest).length - 3) = 24 then .oob
          else .ok { emptyRibEntry with nexthop := ⟨.vpn6,
            (((if p0 = (p0 :: rest).length - 1 then p0 :: rest
               else (p0 :: rest).drop 3).drop 9).take 16)⟩ }
        | _ => .ok emptyRibEntry := by
  unfold mrt_extract_attr
  have hshape : mkTlv flags 14 (p0 :: rest)
      = flags :: 14 :: (attrLenBytes flags (p0 :: rest).length ++ (p0 :: rest)) := rfl
  have hlencast : ((mkTlv flags 14 (p0 :: rest)).length : Int)
      = (((if flags &&& 16 ≠ 0 then 4 else 3) + (p0 :: rest).length : Nat) : Int) := by
    rw [mkTlv_length]
  rw [attrLoop_eq, hlencast, hshape,
    attrStep_tlv_head aid false emptyRibEntry flags 14 (p0 :: rest).length (p0 :: rest) _
      (by omega)]
  by_cases hf : flags &&& 16 ≠ 0
  · simp only [if_pos hf]
    rw [if_neg (by push_cast; omega), if_neg (by push_cast; omega)]
    rw [show (((4 + (p0 :: rest).length : Nat) : Int)) - 4
        = (((p0 :: rest).length : Nat) : Int) from by push_cast; ring]
    exact c3_core aid _ 4 p0 rest hlen hw
  · simp only [if_neg hf]
    rw [if_neg (by push_cast; omega)]
    rw [show (((3 + (p0 :: rest).length : Nat) : Int)) - 3
        = (((p0 :: rest).length : Nat) : Int) from by push_cast; ring]
    exact c3_core aid _ 3 p0 rest hlen hw

/-- Claim C3 witness: a legacy-encoded MP_REACH_NLRI payload of 20 bytes
(first byte 9, so not payload_length - 1 = 19) in an IPv6 record skips
the 3-byte prelude, passes the nlen >= 17 check and stores the 16 bytes
at offset 1 of the normalized payload as the IPv6 next hop. -/
theorem c3_mp_reach_nexthop_witness :
    mrt_extract_attr emptyRibEntry
        [64, 14, 20, 9, 0, 0, 4, 101, 102, 103, 104, 105, 106, 107, 108, 109, 110, 111, 112,
         113, 114, 115, 116]
        23 .inet6 false
      = .ok { emptyRibEntry with nexthop := ⟨.inet6,
          [101, 102, 103, 104, 105, 106, 107, 108, 109, 110, 111, 112, 113, 114, 115, 116]⟩ } := by
  have h := c3_mp_reach_nexthop 64 9
    [0, 0, 4, 101, 102, 103, 104, 105, 106, 107, 108, 109, 110, 111, 112, 113, 114, 115, 116]
    .inet6 (by norm_num) (by norm_num)
  have hl : mkTlv 64 14
      [9, 0, 0, 4, 101, 102, 103, 104, 105, 106, 107, 108, 109, 110, 111, 112, 113, 114, 115,
       116]
      = [64, 14, 20, 9, 0, 0, 4, 101, 102, 103, 104, 105, 106, 107, 108, 109, 110, 111, 112,
         113, 114, 115, 116] := by decide
  rw [hl] at h
  norm_num at h
  exact h
/-- Claim C1 fails on the code (code bug): the parser does read outside
the record payload on well-formed streams.  Three full streams, each a
single framed record, drive mrt_parse into an out-of-bounds read at
exactly the three unchecked sites cited by the claim: (1) a 16-byte
BGP4MP STATE_CHANGE record whose payload ends after the two addresses,
so the old_state/new_state reads in mrt_parse_state run past the
buffer; (2) a 33-byte BGP4MP_ENTRY record ending right after the
prefix, so the attribute-length read in mrt_parse_dump_mp runs past the
buffer; (3) a 17-byte PEER_INDEX_TABLE whose single peer entry ends
after the IPv4 address, so the 2-byte peer ASN read in
mrt_parse_v2_peer runs past the buffer. -/
theorem c1_out_of_bounds_reads :
    mrt_parse ([0, 0, 0, 0, 0, 16, 0, 0, 0, 0, 0, 16]
        ++ [0, 0, 0, 0, 0, 0, 0, 1, 1, 1, 1, 1, 2, 2, 2, 2]) = .oob
    ∧ mrt_parse ([0, 0, 0, 0, 0, 16, 0, 2, 0, 0, 0, 33]
        ++ [0, 0, 0, 0, 0, 0, 0, 1, 9, 9, 9, 9, 8, 8, 8, 8, 0, 0, 0, 0, 0, 0, 0, 0,
            0, 1, 1, 4, 7, 7, 7, 7, 0]) = .oob
    ∧ mrt_parse ([0, 0, 0, 0, 0, 13, 0, 1, 0, 0, 0, 17]
        ++ [1, 2, 3, 4, 0, 0, 0, 1, 0, 9, 9, 9, 9, 5, 5, 5, 5]) = .oob := by
  have h1 : mrt_parse_state ⟨0, 16, 0, 16⟩ [0, 0, 0, 0, 0, 0, 0, 1, 1, 1, 1, 1, 2, 2, 2, 2]
      = .oob := by
    simp [mrt_parse_state, stateMsgPreamble, mrt_afi2aid, mrt_extract_addr]
  have h2 : mrt_parse_dump_mp ⟨0, 16, 2, 33⟩
      [0, 0, 0, 0, 0, 0, 0, 1, 9, 9, 9, 9, 8, 8, 8, 8, 0, 0, 0, 0, 0, 0, 0, 0,
       0, 1, 1, 4, 7, 7, 7, 7, 0] none = .oob := by
    simp [mrt_parse_dump_mp, dumpMpAddrStep, singletonPeer, setPeer0Asn, setPeer0Addr,
      mrt_afi2aid, mrt_extract_addr, mrt_extract_pfx, aidWidthBits, wsub]
  have h3 : mrt_parse_v2_peer [1, 2, 3, 4, 0, 0, 0, 1, 0, 9, 9, 9, 9, 5, 5, 5, 5] = .oob := by
    simp [mrt_parse_v2_peer, v2peerEntries, mrt_extract_addr]
  refine ⟨?_, ?_, ?_⟩
  · simp [mrt_parse, mrt_parse_go_eq, mrt_read_msg, mrt_dispatch, h1]
  · simp [mrt_parse, mrt_parse_go_eq, mrt_read_msg, mrt_dispatch, h2]
  · simp [mrt_parse, mrt_parse_go_eq, mrt_read_msg, mrt_dispatch, h3]
theorem mrt_read_msg_none_short (s : List Nat) (h : s.length < 12) :
    mrt_read_msg s = none := by
  rcases s with _ | ⟨b0, s⟩
  · simp [mrt_read_msg]
  rcases s with _ | ⟨b1, s⟩
  · simp [mrt_read_msg]
  rcases s with _ | ⟨b2, s⟩
  · simp [mrt_read_msg]
  rcases s with _ | ⟨b3, s⟩
  · simp [mrt_read_msg]
  rcases s with _ | ⟨b4, s⟩
  · simp [mrt_read_msg]
  rcases s with _ | ⟨b5, s⟩
  · simp [mrt_read_msg]
  rcases s with _ | ⟨b6, s⟩
  · simp [mrt_read_msg]
  rcases s with _ | ⟨b7, s⟩
  · simp [mrt_read_msg]
  rcases s with _ | ⟨b8, s⟩
  · simp [mrt_read_msg]
  rcases s with _ | ⟨b9, s⟩
  · simp [mrt_read_msg]
  rcases s with _ | ⟨b10, s⟩
  · simp [mrt_read_msg]
  rcases s with _ | ⟨b11, s⟩
  · simp [mrt_read_msg]
  exfalso
  simp at h
  omega

/-- Claim C7: end-of-stream framing.  A stream shorter than the twelve
header bytes produces no sink invocation at all and ends cleanly (ok,
not an error); a stream consisting of a full header whose length field
exceeds the available payload bytes is likewise dropped cleanly with no
sink invocation.  Since mrt_parse processes records sequentially, the
same holds for the truncated trailing record of any longer stream. -/
theorem c7_clean_end_of_stream :
    (∀ s : List Nat, s.length < 12 → mrt_parse s = .ok [])
    ∧ (∀ b0 b1 b2 b3 b4 b5 b6 b7 b8 b9 b10 b11 : Nat, ∀ rest : List Nat,
       rest.length < ((b8 * 256 + b9) * 256 + b10) * 256 + b11 →
       mrt_parse (b0 :: b1 :: b2 :: b3 :: b4 :: b5 :: b6 :: b7 :: b8 :: b9 :: b10 :: b11
         :: rest) = .ok []) := by
  constructor
  · intro s h
    rw [mrt_parse, mrt_parse_go_eq, mrt_read_msg_none_short s h]
  · intro b0 b1 b2 b3 b4 b5 b6 b7 b8 b9 b10 b11 rest h
    rw [mrt_parse, mrt_parse_go_eq]
    simp only [mrt_read_msg, rd32_cons, rd16_cons]
    rw [if_pos h]

/-- Claim C7 witness: the empty stream and a lone header declaring a
100-byte payload with no payload bytes both end cleanly with no sink
invocation. -/
theorem c7_clean_end_of_stream_witness :
    mrt_parse [] = .ok [] ∧ mrt_parse [0, 0, 0, 0, 0, 16, 0, 0, 0, 0, 0, 100] = .ok [] := by
  exact ⟨c7_clean_end_of_stream.1 [] (by norm_num),
    c7_clean_end_of_stream.2 0 0 0 0 0 16 0 0 0 0 0 100 [] (by norm_num)⟩
theorem mpReachBody_nattrs {aid : Aid} {re : MrtRibEntry} {l1 : List Nat} {alen1 : Int}
    {aLen1 : Nat} {re2 : MrtRibEntry} {l2 : List Nat} {alen2 : Int}
    (h : mpReachBody aid re l1 alen1 aLen1 = .ok (re2, l2, alen2)) :
    re2.nattrs = re.nattrs ∧ re2.attrs = re.attrs := by
  unfold mpReachBody at h
  repeat' split at h
  all_goals
    first
    | exact PRes.noConfusion h
    | (simp only [skipAttr, PRes.ok.injEq, Prod.mk.injEq] at h
       rcases h with ⟨h1, h2, h3⟩
       rw [← h1]
       exact ⟨rfl, rfl⟩)

theorem mpReach_nattrs {aid : Aid} {re : MrtRibEntry} {l : List Nat} {alen : Int}
    {attrLen : Nat} {re2 : MrtRibEntry} {l2 : List Nat} {alen2 : Int}
    (h : mpReach aid re l alen attrLen = .ok (re2, l2, alen2)) :
    re2.nattrs = re.nattrs ∧ re2.attrs = re.attrs := by
  unfold mpReach at h
  repeat' split at h
  all_goals
    first
    | exact PRes.noConfusion h
    | exact mpReachBody_nattrs h

theorem attrBody_nattrs {aid : Aid} {as4 : Bool} {re : MrtRibEntry} {tlv : List Nat}
    {hdrSize ty attrLen : Nat} {l : List Nat} {alen : Int}
    {re2 : MrtRibEntry} {l2 : List Nat} {alen2 : Int}
    (h : attrBody aid as4 re tlv hdrSize ty attrLen l alen = .ok (re2, l2, alen2))
    (hc : re.nattrs ≤ 254) (ha : re.attrs.length = re.nattrs) :
    re2.nattrs ≤ 254 ∧ re2.attrs.length = re2.nattrs := by
  unfold attrBody at h
  repeat' split at h
  all_goals
    first
    | exact PRes.noConfusion h
    | (simp only [skipAttr, PRes.ok.injEq, Prod.mk.injEq] at h
       rcases h with ⟨h1, h2, h3⟩
       rw [← h1]
       refine ⟨?_, ?_⟩ <;> simp_all <;> omega)
    | (rcases mpReach_nattrs h with ⟨h1, h2⟩
       rw [h1, h2]
       exact ⟨hc, ha⟩)

theorem attrStep_nattrs {aid : Aid} {as4 : Bool} {re : MrtRibEntry} {l : List Nat}
    {alen : Int} {re2 : MrtRibEntry} {l2 : List Nat} {alen2 : Int}
    (h : attrStep aid as4 re l alen = .ok (re2, l2, alen2))
    (hc : re.nattrs ≤ 254) (ha : re.attrs.length = re.nattrs) :
    re2.nattrs ≤ 254 ∧ re2.attrs.length = re2.nattrs := by
  unfold attrStep at h
  repeat' split at h
  all_goals
    first
    | exact PRes.noConfusion h
    | exact attrBody_nattrs h hc ha

theorem attrLoop_nattrs (aid : Aid) (as4 : Bool) :
    ∀ (re : MrtRibEntry) (l : List Nat) (alen : Int) (re2 : MrtRibEntry),
      attrLoop aid as4 re l alen = .ok re2 → re.nattrs ≤ 254 →
      re.attrs.length = re.nattrs → re2.nattrs ≤ 254 ∧ re2.attrs.length = re2.nattrs := by
  intro re l alen
  induction re, l, alen using attrLoop.induct aid as4 with
  | case1 re l alen re3 l3 alen3 hstep hpos ih =>
    intro re2 h hc ha
    rw [attrLoop_eq, hstep] at h
    simp only [hpos, if_true] at h
    rcases attrStep_nattrs hstep hc ha with ⟨hc2, ha2⟩
    exact ih re2 h hc2 ha2
  | case2 re l alen re3 l3 alen3 hstep hpos =>
    intro re2 h hc ha
    rw [attrLoop_eq, hstep] at h
    simp only [hpos, if_false, PRes.ok.injEq] at h
    rcases attrStep_nattrs hstep hc ha with ⟨hc2, ha2⟩
    rw [← h]
    exact ⟨hc2, ha2⟩
  | case3 re l alen hstep =>
    intro re2 h hc ha
    rw [attrLoop_eq, hstep] at h
    simp at h
  | case4 re l alen hstep =>
    intro re2 h hc ha
    rw [attrLoop_eq, hstep] at h
    simp at h
  | case5 re l alen hstep =>
    intro re2 h hc ha
    rw [attrLoop_eq, hstep] at h
    simp at h
theorem attrStep_unknown240 (aid : Aid) (as4 : Bool) (re : MrtRibEntry) (rest : List Nat)
    (alen : Int) (h3 : ¬ alen < 3) :
    attrStep aid as4 re (0 :: 240 :: 0 :: rest) alen =
      if 255 ≤ re.nattrs + 1 then .fatal
      else .ok ({ re with nattrs := re.nattrs + 1, attrs := re.attrs ++ [[0, 240, 0]] },
        rest, alen - 3) := by
  by_cases hcap : 255 ≤ re.nattrs + 1 <;>
    simp [attrStep, attrBody, skipAttr, h3, hcap]

theorem attrLoop_unknown_fatal (aid : Aid) (as4 : Bool) :
    ∀ (k : Nat) (re : MrtRibEntry), 1 ≤ k → 255 ≤ re.nattrs + k →
      attrLoop aid as4 re ((List.replicate k [0, 240, 0]).flatten) ((3 * k : Nat) : Int)
        = .fatal := by
  intro k
  induction k with
  | zero => intro re h1 h2; exact absurd h1 (by omega)
  | succ k ih =>
    intro re h1 h2
    have hshape : (List.replicate (k + 1) [0, 240, 0]).flatten
        = 0 :: 240 :: 0 :: (List.replicate k [0, 240, 0]).flatten := by
      simp [List.replicate_succ]
    rw [hshape, attrLoop_eq]
    have h3 : ¬ ((3 * (k + 1) : Nat) : Int) < 3 := by push_cast; omega
    rw [attrStep_unknown240 aid as4 re _ _ h3]
    by_cases hcap : 255 ≤ re.nattrs + 1
    · simp [hcap]
    · have hk : 1 ≤ k := by omega
      simp only [hcap, if_false]
      have halen : ((3 * (k + 1) : Nat) : Int) - 3 = ((3 * k : Nat) : Int) := by
        push_cast; ring
      rw [halen]
      have hpos : (0 : Int) < ((3 * k : Nat) : Int) := by push_cast; omega
      simp only [hpos, if_true]
      exact ih _ hk (by simp; omega)

/-- C8: mrt_extract_attr caps the number of stored unknown attributes at
UCHAR_MAX - 1 = 254: starting from an entry with at most 254 stored
attributes (and a consistent count), any successful run again ends with
at most 254 stored attributes, the count matching the list; and a span
of 255 unknown attribute TLVs makes the parser abort fatally (errx) at
the 255th, before the counter could wrap the u_char. -/
theorem c8_attribute_count_cap :
    (∀ (re : MrtRibEntry) (l : List Nat) (alen : Int) (aid : Aid) (as4 : Bool)
       (re2 : MrtRibEntry),
       re.nattrs ≤ 254 → re.attrs.length = re.nattrs →
       mrt_extract_attr re l alen aid as4 = .ok re2 →
       re2.nattrs ≤ 254 ∧ re2.attrs.length = re2.nattrs)
    ∧ mrt_extract_attr emptyRibEntry ((List.replicate 255 [0, 240, 0]).flatten) 765 .inet
        false = .fatal := by
  constructor
  · intro re l alen aid as4 re2 hc ha h
    exact attrLoop_nattrs aid as4 re l alen re2 h hc ha
  · have h := attrLoop_unknown_fatal .inet false 255 emptyRibEntry (by omega)
      (by simp [emptyRibEntry])
    rw [show ((3 * 255 : Nat) : Int) = (765 : Int) from by norm_num] at h
    unfold mrt_extract_attr
    exact h

/-- Witness for C8: the cap theorem applied to a concrete one-attribute
span, whose parse is evaluated explicitly. -/
theorem c8_attribute_count_cap_witness :
    ({ emptyRibEntry with nattrs := 1, attrs := [[0, 240, 0]] } : MrtRibEntry).nattrs ≤ 254 ∧
    ({ emptyRibEntry with nattrs := 1, attrs := [[0, 240, 0]] } : MrtRibEntry).attrs.length
      = ({ emptyRibEntry with nattrs := 1, attrs := [[0, 240, 0]] } : MrtRibEntry).nattrs :=
  c8_attribute_count_cap.1 emptyRibEntry [0, 240, 0] 3 .inet false
    { emptyRibEntry with nattrs := 1, attrs := [[0, 240, 0]] }
    (by simp [emptyRibEntry]) (by simp [emptyRibEntry])
    (by norm_num [mrt_extract_attr, attrLoop_eq, attrStep, attrBody, skipAttr, emptyRibEntry])

/-- Modelled from the spec: the abstract content of one wire peer entry
of a PEER_INDEX_TABLE — the type byte, the collector-assigned BGP id,
the raw address bytes and the AS number. -/
structure PeerWire where
  ptype : Nat
  bgp_id : Nat
  addrBytes : List Nat
  asn : Nat
deriving DecidableEq, Repr

/-- Wire encoding of the AS number of a peer entry: 4 bytes when type
bit A (0x2) is set, else 2 bytes. -/
def asnEnc (w : PeerWire) : List Nat :=
  if w.ptype &&& 2 ≠ 0 then be32enc w.asn else be16enc w.asn

/-- Wire encoding of one peer entry: type byte, 4-byte BGP id, address
bytes, then the AS number. -/
def encodePeerEntry (w : PeerWire) : List Nat :=
  w.ptype :: (be32enc w.bgp_id ++ (w.addrBytes ++ asnEnc w))

/-- Wire encoding of a whole PEER_INDEX_TABLE payload: collector BGP id,
view name length and bytes, peer count, then the entries. -/
def encodePeerTable (c : Nat) (view : List Nat) (ws : List PeerWire) : List Nat :=
  be32enc c ++ (be16enc view.length ++ (view ++ (be16enc ws.length
    ++ (ws.map encodePeerEntry).flatten)))

/-- The entry mrt_parse_v2_peer is expected to produce from one wire
peer entry: bgp id and ASN verbatim, family chosen by type bit I. -/
def decodePeerEntry (w : PeerWire) : MrtPeerEntry :=
  ⟨w.bgp_id, ⟨if w.ptype &&& 1 ≠ 0 then .inet6 else .inet, w.addrBytes⟩, w.asn⟩

theorem mrt_extract_addr_left6 {a Y : List Nat} (h : a.length = 16) :
    mrt_extract_addr (a ++ Y) (a ++ Y).length .inet6 = .ok (⟨.inet6, a⟩, 16) := by
  have hc1 : ¬ (a ++ Y).length < 16 := by simp only [List.length_append, h]; omega
  have hc2 : 16 ≤ (a ++ Y).length := by simp only [List.length_append, h]; omega
  have hc3 : (a ++ Y).take 16 = a := List.take_left' h
  simp only [mrt_extract_addr]
  rw [if_neg hc1, if_pos hc2, hc3]

theorem mrt_extract_addr_left4 {a Y : List Nat} (h : a.length = 4) :
    mrt_extract_addr (a ++ Y) (a ++ Y).length .inet = .ok (⟨.inet, a⟩, 4) := by
  have hc1 : ¬ (a ++ Y).length < 4 := by simp only [List.length_append, h]; omega
  have hc2 : 4 ≤ (a ++ Y).length := by simp only [List.length_append, h]; omega
  have hc3 : (a ++ Y).take 4 = a := List.take_left' h
  simp only [mrt_extract_addr]
  rw [if_neg hc1, if_pos hc2, hc3]

theorem v2peerEntries_step (w : PeerWire) (rest : List Nat) (cnt : Nat)
    (acc : List MrtPeerEntry) (hbid : w.bgp_id < 4294967296)
    (haddr : w.addrBytes.length = if w.ptype &&& 1 ≠ 0 then 16 else 4)
    (hasn : w.asn < if w.ptype &&& 2 ≠ 0 then 4294967296 else 65536) :
    v2peerEntries (cnt + 1) (encodePeerEntry w ++ rest) acc
      = v2peerEntries cnt rest (acc ++ [decodePeerEntry w]) := by
  have hflat : encodePeerEntry w ++ rest
      = w.ptype :: (be32enc w.bgp_id ++ (w.addrBytes ++ (asnEnc w ++ rest))) := by
    simp [encodePeerEntry, List.append_assoc]
  have hlen5 : ¬ (w.ptype ::
      (be32enc w.bgp_id ++ (w.addrBytes ++ (asnEnc w ++ rest)))).length < 5 := by
    simp only [List.length_cons, List.length_append, be32enc, List.length_nil]
    omega
  rw [hflat]
  simp only [v2peerEntries]
  rw [if_neg hlen5]
  by_cases hA : w.ptype &&& 1 ≠ 0
  · have h16 : w.addrBytes.length = 16 := by rw [haddr, if_pos hA]
    by_cases hB : w.ptype &&& 2 ≠ 0
    · have hasn32 : w.asn < 4294967296 := by rw [if_pos hB] at hasn; exact hasn
      simp only [rd8_cons, rd32_be32enc w.bgp_id hbid, if_pos hA, if_pos hB,
        mrt_extract_addr_left6 h16, List.drop_left' h16, asnEnc,
        rd32_be32enc w.asn hasn32, decodePeerEntry]
    · have hasn16 : w.asn < 65536 := by rw [if_neg hB] at hasn; exact hasn
      simp only [rd8_cons, rd32_be32enc w.bgp_id hbid, if_pos hA, if_neg hB,
        mrt_extract_addr_left6 h16, List.drop_left' h16, asnEnc,
        rd16_be16enc w.asn hasn16, decodePeerEntry]
  · have h4 : w.addrBytes.length = 4 := by rw [haddr, if_neg hA]
    by_cases hB : w.ptype &&& 2 ≠ 0
    · have hasn32 : w.asn < 4294967296 := by rw [if_pos hB] at hasn; exact hasn
      simp only [rd8_cons, rd32_be32enc w.bgp_id hbid, if_neg hA, if_pos hB,
        mrt_extract_addr_left4 h4, List.drop_left' h4, asnEnc,
        rd32_be32enc w.asn hasn32, decodePeerEntry]
    · have hasn16 : w.asn < 65536 := by rw [if_neg hB] at hasn; exact hasn
      simp only [rd8_cons, rd32_be32enc w.bgp_id hbid, if_neg hA, if_neg hB,
        mrt_extract_addr_left4 h4, List.drop_left' h4, asnEnc,
        rd16_be16enc w.asn hasn16, decodePeerEntry]

theorem v2peerEntries_encode (ws : List PeerWire) :
    ∀ acc : List MrtPeerEntry,
      (∀ w ∈ ws, w.bgp_id < 4294967296
        ∧ w.addrBytes.length = (if w.ptype &&& 1 ≠ 0 then 16 else 4)
        ∧ w.asn < (if w.ptype &&& 2 ≠ 0 then 4294967296 else 65536)) →
      v2peerEntries ws.length ((ws.map encodePeerEntry).flatten) acc
        = .ok (acc ++ ws.map decodePeerEntry) := by
  induction ws with
  | nil => intro acc hwf; simp [v2peerEntries]
  | cons w ws ih =>
    intro acc hwf
    obtain ⟨hbid, haddr, hasn⟩ := hwf w (List.mem_cons_self w ws)
    have hstep := v2peerEntries_step w ((ws.map encodePeerEntry).flatten) ws.length acc
      hbid haddr hasn
    simp only [List.map_cons, List.flatten_cons, List.length_cons]
    rw [hstep, ih (acc ++ [decodePeerEntry w])
      (fun x hx => hwf x (List.mem_cons_of_mem w hx))]
    simp

/-- C6: mrt_parse_v2_peer decodes a well-formed PEER_INDEX_TABLE payload
exactly: collector BGP id and view name verbatim (empty view allowed),
and one entry per wire peer in input order, each with the wire bgp id,
an IPv4 or IPv6 address selected by type bit I (0x1), and a 2- or
4-byte AS number selected by type bit A (0x2). -/
theorem c6_peer_table_roundtrip (c : Nat) (view : List Nat) (ws : List PeerWire)
    (hc : c < 4294967296) (hview : view.length < 65536) (hn : ws.length < 65536)
    (hwf : ∀ w ∈ ws, w.bgp_id < 4294967296
      ∧ w.addrBytes.length = (if w.ptype &&& 1 ≠ 0 then 16 else 4)
      ∧ w.asn < (if w.ptype &&& 2 ≠ 0 then 4294967296 else 65536)) :
    mrt_parse_v2_peer (encodePeerTable c view ws)
      = .ok ⟨c, view, ws.map decodePeerEntry, ws.length⟩ := by
  have hlen8 : ¬ (be32enc c ++ (be16enc view.length ++ (view ++ (be16enc ws.length
      ++ (ws.map encodePeerEntry).flatten)))).length < 8 := by
    simp only [List.length_append, be32enc, be16enc, List.length_cons, List.length_nil]
    omega
  have hvlen : ¬ (view ++ (be16enc ws.length
      ++ (ws.map encodePeerEntry).flatten)).length < view.length := by
    simp only [List.length_append]
    omega
  simp only [mrt_parse_v2_peer, encodePeerTable]
  rw [if_neg hlen8]
  simp only [rd32_be32enc c hc, rd16_be16enc view.length hview]
  rw [if_neg hvlen]
  simp only [List.drop_left, rd16_be16enc ws.length hn,
    v2peerEntries_encode ws [] hwf, List.take_left, List.nil_append]

/-- Witness for C6: a one-peer table (collector id 0x01020304, one-byte
view name, an IPv4 peer with a 4-byte AS number) decoded through the
roundtrip theorem. -/
theorem c6_peer_table_roundtrip_witness :
    mrt_parse_v2_peer (encodePeerTable 16909060 [118] [⟨2, 5, [10, 0, 0, 1], 70000⟩])
      = .ok ⟨16909060, [118], [⟨2, 5, [10, 0, 0, 1], 70000⟩].map decodePeerEntry, 1⟩ :=
  c6_peer_table_roundtrip 16909060 [118] [⟨2, 5, [10, 0, 0, 1], 70000⟩]
    (by norm_num) (by norm_num) (by norm_num) (by decide)

end Mrt
